import Mathlib

/-!
# Verification of the verse-splitting time/segment resolution logic

Shallow embedding of the pure resolution logic of `split_verses.py`:
time-string parsing (`parse_time`, `parse_excel_time`), the `mmss`
formatter, grid generation (`grid_cuts`), clamping, header detection and
the CSV/Excel timestamp loaders.

Modelling conventions:
  * Milliseconds are `Int` (Python ints are unbounded).
  * Python `float` arithmetic on the short decimal strings involved is
    modelled exactly by unnormalized fractions `Frac` (integer numerator,
    positive integer denominator); Python's `round` (banker's rounding,
    half-to-even) is `pyRound`.  The decimal grammar accepted by
    `float(...)` / `int(...)` is modelled for plain decimal literals
    (optional sign, digits, optional fractional part); exotic inputs such
    as `"inf"`, `"nan"`, scientific notation or `_` digit separators are
    outside the modelled fragment.
  * Python `str.strip` is `pyStrip`, `str.split(c)` is `splitOnChar`.
  * Fallible code returns `Option` / `Except String`.
-/

instance {ε α : Type} [DecidableEq ε] [DecidableEq α] : DecidableEq (Except ε α) := fun x y =>
  match x, y with
  | Except.ok a, Except.ok b =>
    if h : a = b then isTrue (by rw [h]) else isFalse (by simp [h])
  | Except.error a, Except.error b =>
    if h : a = b then isTrue (by rw [h]) else isFalse (by simp [h])
  | Except.ok _, Except.error _ => isFalse (by simp)
  | Except.error _, Except.ok _ => isFalse (by simp)

/-- Python `str.strip()` on a character list: drop whitespace from both ends. -/
def pyStrip (l : List Char) : List Char :=
  ((l.dropWhile Char.isWhitespace).reverse.dropWhile Char.isWhitespace).reverse

/-- Python `s.strip()` for strings. -/
def strip (s : String) : String :=
  String.mk (pyStrip s.data)

/-- Python `s.split(sep)` for a single-character separator: every maximal
run between separators, empty runs included. -/
def splitOnChar (sep : Char) : List Char → List (List Char)
  | [] => [[]]
  | c :: cs =>
    if c = sep then
      [] :: splitOnChar sep cs
    else
      match splitOnChar sep cs with
      | [] => [[c]]
      | p :: ps => (c :: p) :: ps

/-- An exact rational value `num / den` (denominator kept positive by every
producer, never normalized, so that all arithmetic is plain `Int`
computation). -/
structure Frac where
  num : Int
  den : Int
deriving DecidableEq, Repr

/-- Embed an integer. -/
def fofInt (n : Int) : Frac := ⟨n, 1⟩

/-- Exact sum. -/
def fadd (a b : Frac) : Frac := ⟨a.num * b.den + b.num * a.den, a.den * b.den⟩

/-- Exact product. -/
def fmul (a b : Frac) : Frac := ⟨a.num * b.num, a.den * b.den⟩

/-- Exact quotient by a (positive) integer. -/
def fdivInt (a : Frac) (k : Int) : Frac := ⟨a.num, a.den * k⟩

/-- Negation. -/
def fneg (a : Frac) : Frac := ⟨-a.num, a.den⟩

/-- The rational value of a `Frac` (used in statements, not computation). -/
def Frac.toRat (f : Frac) : Rat := (f.num : Rat) / (f.den : Rat)

/-- Python 3 `round(q)` for an exact rational with positive denominator:
nearest integer, ties to even.  `Int.fdiv` is floor division, so
`q = num.fdiv den` and the doubled remainder `2*(num - q*den)` compares
against `den` to decide below/above/at the half point. -/
def pyRound (f : Frac) : Int :=
  if 2 * (f.num - f.num.fdiv f.den * f.den) < f.den then f.num.fdiv f.den
  else if f.den < 2 * (f.num - f.num.fdiv f.den * f.den) then f.num.fdiv f.den + 1
  else if f.num.fdiv f.den % 2 = 0 then f.num.fdiv f.den
  else f.num.fdiv f.den + 1

/-- Numeric value of a digit string (most significant first). -/
def digitsVal (l : List Char) : Nat :=
  l.foldl (fun n c => 10 * n + (c.toNat - ('0').toNat)) 0

/-- Unsigned decimal literal: `digits`, `digits.digits`, `digits.` or
`.digits` (at least one digit overall). -/
def parseUnsignedDec (cs : List Char) : Option Frac :=
  let intPart := cs.takeWhile Char.isDigit
  let rest := cs.dropWhile Char.isDigit
  match rest with
  | [] => if intPart.isEmpty then none else some (fofInt (digitsVal intPart))
  | '.' :: frac =>
    if frac.all Char.isDigit ∧ (intPart ≠ [] ∨ frac ≠ []) then
      some ⟨(digitsVal intPart : Int) * (10 : Int) ^ frac.length + (digitsVal frac : Int),
            (10 : Int) ^ frac.length⟩
    else none
  | _ => none

/-- Python `float(text)` on the plain decimal fragment: optional
whitespace, optional sign, decimal literal. -/
def parseDecimal (s : String) : Option Frac :=
  match pyStrip s.data with
  | '-' :: cs => (parseUnsignedDec cs).map fneg
  | '+' :: cs => parseUnsignedDec cs
  | cs => parseUnsignedDec cs

/-- Python `int(text)`: optional whitespace, optional sign, digits only. -/
def parsePyInt (s : String) : Option Int :=
  let core : List Char → Option Int := fun cs =>
    if cs ≠ [] ∧ cs.all Char.isDigit then some (digitsVal cs : Int) else none
  match pyStrip s.data with
  | '-' :: cs => (core cs).map (fun n => -n)
  | '+' :: cs => core cs
  | cs => core cs

/-- `parse_time` (split_verses.py:40): `"75"` seconds, `"01:15"`,
`"01:15.250"`, or `"h:mm:ss"` into milliseconds; any other colon count
fails. -/
def parse_time (s : String) : Option Int :=
  let cs := pyStrip s.data
  if (':') ∉ cs then
    (parseDecimal (String.mk cs)).map (fun sec => pyRound (fmul sec (fofInt 1000)))
  else
    match splitOnChar (':') cs with
    | [mm, ss] => do
      let m ← parsePyInt (String.mk mm)
      let sv ← parseDecimal (String.mk ss)
      pure (pyRound (fmul (fadd (fofInt (m * 60)) sv) (fofInt 1000)))
    | [hh, mm, ss] => do
      let h ← parsePyInt (String.mk hh)
      let m ← parsePyInt (String.mk mm)
      let sv ← parseDecimal (String.mk ss)
      pure (pyRound (fmul (fadd (fofInt (h * 3600 + m * 60)) sv) (fofInt 1000)))
    | _ => none

/-- Python `f"{n:02d}"`: decimal rendering padded with `0` to width 2. -/
def fmt02 (n : Int) : String :=
  if 0 ≤ n ∧ n < 10 then "0" ++ toString n else toString n

/-- `mmss` (split_verses.py:60): milliseconds to `MM:SS`, rounding to the
nearest second (Python `//` and `%` are `Int.fdiv` / `Int.fmod`). -/
def mmss (ms : Int) : String :=
  let s := pyRound ⟨ms, 1000⟩
  let m := s.fdiv 60
  let sec := s.fmod 60
  fmt02 m ++ ":" ++ fmt02 sec

/-- `normalize_header` (split_verses.py:79): lowercase, keep only
alphanumeric characters. -/
def normalize_header (cell : String) : String :=
  String.mk ((cell.data.map Char.toLower).filter Char.isAlphanum)

/-- Loop body of `grid_cuts`: generate from the remaining ordinals,
stopping (not skipping) at the first empty-or-inverted clamped range. -/
def gridAux (start_ms length_ms total_ms : Int) : List Nat → List (Int × Int)
  | [] => []
  | i :: is =>
    if max 0 (min (start_ms + (i : Int) * length_ms + length_ms) total_ms) ≤
        max 0 (min (start_ms + (i : Int) * length_ms) total_ms) then []
    else
      (max 0 (min (start_ms + (i : Int) * length_ms) total_ms),
        max 0 (min (start_ms + (i : Int) * length_ms + length_ms) total_ms)) ::
        gridAux start_ms length_ms total_ms is

/-- `grid_cuts` (split_verses.py:82). `count` is an `Int`; Python
`range(count)` is empty for non-positive counts, hence `count.toNat`. -/
def grid_cuts (start_ms count length_ms total_ms : Int) : List (Int × Int) :=
  gridAux start_ms length_ms total_ms (List.range count.toNat)

/-- `clamp_segment` (split_verses.py:148). -/
def clamp_segment (start_ms end_ms total_ms : Int) : Int × Int :=
  (max 0 (min start_ms total_ms), max 0 (min end_ms total_ms))

/-- `sanitize_filename`-style `Segment` record (split_verses.py:29). -/
structure Segment where
  label : String
  start_ms : Int
  end_ms : Int
deriving DecidableEq, Repr

/-- `Segment.duration_ms` (split_verses.py:35). -/
def Segment.duration_ms (seg : Segment) : Int :=
  max 0 (seg.end_ms - seg.start_ms)

/-- `str.startswith` on strings. -/
def strStartsWith (s pre : String) : Bool :=
  pre.data.isPrefixOf s.data

/-- `find_column` inner search (split_verses.py:231): first column, left to
right, whose normalized header equals or starts with some keyword. -/
def findColAux (kws : List String) : List String → Nat → Option Nat
  | [], _ => none
  | n :: ns, i =>
    if kws.any (fun kw => n = kw ∨ strStartsWith n kw) then some i
    else findColAux kws ns (i + 1)

/-- `find_column` (split_verses.py:231). -/
def find_column (header_norm : List String) (kws : List String) : Option Nat :=
  findColAux kws header_norm 0

/-- First index at or after `i` whose element satisfies `p`: the
"first matching column wins, left to right" rule. -/
def firstIdxAux (p : String → Bool) : List String → Nat → Option Nat
  | [], _ => none
  | n :: ns, i => if p n then some i else firstIdxAux p ns (i + 1)

/-- `row_looks_like_header` (split_verses.py:244): some cell contains an
alphabetic character. -/
def row_looks_like_header (row : List String) : Bool :=
  row.any (fun cell => cell.data.any Char.isAlpha)

/-- `idx is not None and idx < len(row) and row[idx]` (split_verses.py:262):
the cell at an optional index, `none` when absent or empty. -/
def cellVal (row : List String) (idx : Option Nat) : Option String :=
  match idx with
  | none => none
  | some i =>
    match row.get? i with
    | some c => if c ≠ "" then some c else none
    | none => none

/-- Per-row value resolution of `load_timestamps_csv`
(split_verses.py:258-275): header-resolved start with end (`use_end`) or
duration, else positional fallback on the first two populated cells with
`use_end = false`. -/
def resolveRow (idx_start idx_end idx_dur : Option Nat) (row : List String) :
    Except String (String × String × Bool) :=
  let viaHeader : Option (String × String × Bool) :=
    match cellVal row idx_start with
    | none => none
    | some st =>
      match cellVal row idx_end with
      | some en => some (st, en, true)
      | none =>
        match cellVal row idx_dur with
        | some du => some (st, du, false)
        | none => none
  match viaHeader with
  | some t => Except.ok t
  | none =>
    match row.filter (fun c => c ≠ "") with
    | a :: b :: _ => Except.ok (a, b, false)
    | _ => Except.error "Timestamps CSV needs at least 2 columns (start,end or start,duration)."

/-- Data-row loop of `load_timestamps_csv` (split_verses.py:254-288). -/
def csvRowsAux (idx_start idx_end idx_dur : Option Nat) (total_ms : Int) :
    List (List String) → Except String (List (Int × Int))
  | [] => Except.ok []
  | r :: rs => do
    let row := r.map strip
    if row.all (fun c => c = "") then csvRowsAux idx_start idx_end idx_dur total_ms rs
    else do
      let (start_s, second, use_end) ← resolveRow idx_start idx_end idx_dur row
      let st ← match parse_time start_s with
        | some v => Except.ok v
        | none => Except.error ("Unrecognized time format: " ++ start_s)
      let sec ← match parse_time second with
        | some v => Except.ok v
        | none => Except.error ("Unrecognized time format: " ++ second)
      let en := if use_end then sec else st + sec
      let st2 := max 0 (min st total_ms)
      let en2 := max 0 (min en total_ms)
      let rest ← csvRowsAux idx_start idx_end idx_dur total_ms rs
      Except.ok (if st2 < en2 then (st2, en2) :: rest else rest)

/-- `load_timestamps_csv` (split_verses.py:218): rows as read by
`csv.reader`, returning the clamped cuts in row order. -/
def load_timestamps_csv (rows : List (List String)) (total_ms : Int) :
    Except String (List (Int × Int)) :=
  let header_raw := (rows.headD []).map strip
  let header_norm := header_raw.map normalize_header
  if header_raw ≠ [] ∧ row_looks_like_header header_raw then
    csvRowsAux (find_column header_norm ["start", "begin"])
      (find_column header_norm ["end", "stop", "finish"])
      (find_column header_norm ["duration", "length", "dur"]) total_ms (rows.drop 1)
  else
    csvRowsAux none none none total_ms rows

/-- A spreadsheet cell value as seen by `parse_excel_time`: a native
duration (`datetime.timedelta`, exact total seconds), a native time of
day, a native datetime (only its time-of-day component is read), or any
other value via its `str()` text. -/
inductive XCell where
  | td (seconds : Frac)
  | tod (hour minute second : Nat) (microsecond : Nat)
  | dt (hour minute second : Nat) (microsecond : Nat)
  | str (s : String)
deriving DecidableEq, Repr

/-- Python `str()` of a cell value.  The loaders consume this text only
for non-emptiness tests, header-keyword normalization and labels; for
native temporal values (whose Python renderings are nonempty and never
match a header keyword once normalized) a canonical nonempty rendering
stands in for the exact Python one. -/
def cellStr : XCell → String
  | .str s => s
  | .td q => toString q.num ++ "/" ++ toString q.den ++ "s"
  | .tod h m s u => toString h ++ ":" ++ toString m ++ ":" ++ toString s ++ "." ++ toString u
  | .dt h m s u => toString h ++ ":" ++ toString m ++ ":" ++ toString s ++ "." ++ toString u

/-- The `minutes.seconds` digit shorthand (split_verses.py:107-113): no
digits → 0 seconds; a single digit → tens of seconds; otherwise the first
two digits as seconds. -/
def secondsShorthand (seconds_digits : List Char) : Int :=
  if seconds_digits = [] then 0
  else if seconds_digits.length = 1 then (digitsVal seconds_digits : Int) * 10
  else (digitsVal (seconds_digits.take 2) : Int)

/-- `minutes_seconds_from_string` (split_verses.py:98): colon text via
`parse_time` and `divmod(·, 1000)`; dot text as `minutes.seconds`
shorthand; plain text as a float number of minutes. -/
def minutesSecondsFromString (text : String) : Except String (Int × Int) :=
  let t := pyStrip text.data
  if t = [] then Except.error "Empty time value"
  else if (':') ∈ t then
    match parse_time (String.mk t) with
    | some p => Except.ok (p.fdiv 1000, p.fmod 1000)
    | none => Except.error "Malformed time value"
  else if ('.') ∈ t then
    let minutes_str := t.takeWhile (fun c => c ≠ '.')
    let seconds_str := (t.dropWhile (fun c => c ≠ '.')).drop 1
    match (if minutes_str = [] then some 0 else parsePyInt (String.mk minutes_str)) with
    | none => Except.error "Malformed minutes value"
    | some minutes =>
      let seconds_digits := seconds_str.filter Char.isDigit
      let seconds := max 0 (min (secondsShorthand seconds_digits) 59)
      Except.ok (minutes * 60 + seconds, 0)
  else
    match parseDecimal (String.mk t) with
    | some q => Except.ok (pyRound (fmul q (fofInt 60)), 0)
    | none => Except.error "Malformed minutes value"

/-- `parse_excel_time` (split_verses.py:95): native durations and
times-of-day convert directly; text goes through
`minutes_seconds_from_string`, whose `(seconds, remainder_ms)` result is
recombined and rounded to milliseconds. -/
def parse_excel_time (value : Option XCell) : Except String Int :=
  match value with
  | none => Except.error "Missing time value in Excel sheet"
  | some (.td q) => Except.ok (pyRound (fmul q (fofInt 1000)))
  | some (.tod h m s u) =>
    Except.ok (pyRound (fmul (fadd (fofInt ((h : Int) * 3600 + (m : Int) * 60 + (s : Int)))
      (fdivInt (fofInt (u : Int)) 1000000)) (fofInt 1000)))
  | some (.dt h m s u) =>
    Except.ok (pyRound (fmul (fadd (fofInt ((h : Int) * 3600 + (m : Int) * 60 + (s : Int)))
      (fdivInt (fofInt (u : Int)) 1000000)) (fofInt 1000)))
  | some (.str s) =>
    let t := pyStrip s.data
    if t = [] then Except.error "Empty time value in Excel sheet"
    else do
      let (sec, rem) ← minutesSecondsFromString (String.mk t)
      if rem = 0 then Except.ok (sec * 1000)
      else Except.ok (pyRound (fmul (fadd (fofInt sec) (fdivInt (fofInt rem) 1000)) (fofInt 1000)))

/-- `cell is not None and str(cell).strip()` (split_verses.py:167). -/
def cellNonEmpty : Option XCell → Bool
  | none => false
  | some c => strip (cellStr c) ≠ ""

/-- Header-row search of `load_timestamps_excel` (split_verses.py:166-171):
the first row with any non-`None`, non-blank cell, together with the rows
after it. -/
def findHeader : List (List (Option XCell)) →
    Option (List (Option XCell) × List (List (Option XCell)))
  | [] => none
  | r :: rs =>
    if r ≠ [] ∧ r.any cellNonEmpty then some (r, rs) else findHeader rs

/-- Role-detection loop of `load_timestamps_excel`
(split_verses.py:177-183): for each of label/begin/end, the first column
whose normalized header is **exactly** one of the accepted keywords. -/
def excelRolesAux : List String → Nat → Option Nat × Option Nat × Option Nat →
    Option Nat × Option Nat × Option Nat
  | [], _, acc => acc
  | h :: hs, i, (l, b, e) =>
    let l := if l = none ∧ h ∈ ["chaptersloka", "verse", "sloka", "name", "label"] then some i else l
    let b := if b = none ∧ h ∈ ["beginning", "begin", "start"] then some i else b
    let e := if e = none ∧ h ∈ ["ending", "end", "finish"] then some i else e
    excelRolesAux hs (i + 1) (l, b, e)

/-- Column roles of an Excel sheet header (split_verses.py:174-183). -/
def excelRoles (headers : List String) : Option Nat × Option Nat × Option Nat :=
  excelRolesAux headers 0 (none, none, none)

/-- One data row of `load_timestamps_excel` (split_verses.py:190-208):
skip rows with a missing/blank label or a missing start/end cell, parse
and clamp otherwise, and drop collapsed ranges. -/
def excelRowSeg (idx_label idx_begin idx_end : Nat) (total_ms : Int)
    (row : List (Option XCell)) : Except String (Option Segment) :=
  if row = [] then Except.ok none
  else
    let label_cell := (row.get? idx_label).join
    let start_cell := (row.get? idx_begin).join
    let end_cell := (row.get? idx_end).join
    match label_cell with
    | none => Except.ok none
    | some lc =>
      if strip (cellStr lc) = "" then Except.ok none
      else
        match start_cell, end_cell with
        | some sc, some ec => do
          let st ← parse_excel_time (some sc)
          let en ← parse_excel_time (some ec)
          let (st2, en2) := clamp_segment st en total_ms
          if en2 ≤ st2 then Except.ok none
          else Except.ok (some ⟨strip (cellStr lc), st2, en2⟩)
        | _, _ => Except.ok none

/-- Data-row loop of one sheet (split_verses.py:189-208). -/
def collectSegs (idx_label idx_begin idx_end : Nat) (total_ms : Int) :
    List (List (Option XCell)) → Except String (List Segment)
  | [] => Except.ok []
  | r :: rs => do
    let s? ← excelRowSeg idx_label idx_begin idx_end total_ms r
    let rest ← collectSegs idx_label idx_begin idx_end total_ms rs
    match s? with
    | some seg => Except.ok (seg :: rest)
    | none => Except.ok rest

/-- Stable insertion (earlier elements stay first among equal keys). -/
def insertByStart (x : Segment) : List Segment → List Segment
  | [] => [x]
  | y :: ys => if x.start_ms ≤ y.start_ms then x :: y :: ys else y :: insertByStart x ys

/-- Python's stable `segments.sort(key=lambda seg: seg.start_ms)`
(split_verses.py:211), modelled by stable insertion sort. -/
def sortByStart : List Segment → List Segment
  | [] => []
  | x :: xs => insertByStart x (sortByStart xs)

/-- Normalized header texts of a header row (split_verses.py:173). -/
def sheetHeaders (hdr : List (Option XCell)) : List String :=
  hdr.map (fun c => match c with
    | some v => normalize_header (cellStr v)
    | none => "")

/-- Processing of one worksheet of `load_timestamps_excel`
(split_verses.py:163-212): find the header row, detect roles (raising a
sheet-naming error when label/begin/end are not all present), collect and
sort the valid segments. -/
def sheetSegments (title : String) (rows : List (List (Option XCell))) (total_ms : Int) :
    Except String (List Segment) :=
  match findHeader rows with
  | none => Except.ok []
  | some (hdr, rest) =>
    match excelRoles (sheetHeaders hdr) with
    | (some il, some ib, some ie) => do
      let segs ← collectSegs il ib ie total_ms rest
      Except.ok (sortByStart segs)
    | _ =>
      Except.error ("Sheet '" ++ title ++
        "' must contain 'Chapter Sloka', 'Beginning', and 'Ending' columns.")

/-- Python-dict insertion preserving first-insertion position on key
reuse (split_verses.py:212). -/
def dictInsert (l : List (String × List Segment)) (k : String) (v : List Segment) :
    List (String × List Segment) :=
  if l.any (fun p => p.1 = k) then l.map (fun p => if p.1 = k then (k, v) else p)
  else l ++ [(k, v)]

/-- Worksheet loop of `load_timestamps_excel` (split_verses.py:163-212):
sheets whose segment list is empty are omitted; a sheet error aborts. -/
def loadExcelAux (total_ms : Int) : List (String × List (List (Option XCell))) →
    List (String × List Segment) → Except String (List (String × List Segment))
  | [], acc => Except.ok acc
  | (title, rows) :: ws, acc => do
    let segs ← sheetSegments title rows total_ms
    loadExcelAux total_ms ws (if segs = [] then acc else dictInsert acc title segs)

/-- `load_timestamps_excel` (split_verses.py:154): a workbook is a list of
`(sheet title, rows)`; the result maps chapter names to their segments,
failing when no sheet yields any segment. -/
def load_timestamps_excel (wb : List (String × List (List (Option XCell))))
    (total_ms : Int) : Except String (List (String × List Segment)) := do
  let chapters ← loadExcelAux total_ms wb []
  if chapters = [] then Except.error "No usable data found in Excel file."
  else Except.ok chapters

/-! ## Basic lemmas about rounding and clamping -/

lemma fdiv_bounds {n d : Int} (hd : 0 < d) :
    n.fdiv d * d ≤ n ∧ n < n.fdiv d * d + d := by
  rw [Int.fdiv_eq_ediv _ (le_of_lt hd)]
  have h1 := Int.ediv_add_emod n d
  have h2 := Int.emod_nonneg n (ne_of_gt hd)
  have h3 := Int.emod_lt_of_pos n hd
  constructor <;> nlinarith

/-- `pyRound` returns a nearest integer: the doubled distance from the
exact value, scaled by the denominator, is at most the denominator. -/
lemma pyRound_nearest (f : Frac) (hd : 0 < f.den) :
    |2 * (pyRound f * f.den - f.num)| ≤ f.den := by
  obtain ⟨h1, h2⟩ := fdiv_bounds (n := f.num) hd
  rw [abs_le]
  unfold pyRound
  split_ifs <;> constructor <;> nlinarith

/-- `pyRound` of an exact integer multiple is that integer. -/
lemma pyRound_intMul (n k : Int) (hk : 0 < k) : pyRound ⟨n * k, k⟩ = n := by
  unfold pyRound
  simp only [Int.mul_fdiv_cancel n (ne_of_gt hk)]
  split_ifs <;> omega

/-- `pyRound` of a nonnegative value is nonnegative. -/
lemma pyRound_nonneg (f : Frac) (hd : 0 < f.den) (hn : 0 ≤ f.num) :
    0 ≤ pyRound f := by
  have hq : 0 ≤ f.num.fdiv f.den := Int.fdiv_nonneg hn (le_of_lt hd)
  unfold pyRound
  split_ifs <;> omega

/-- A clamped range that came out non-collapsed lies inside `[0, total]`. -/
lemma clamp_pos_bounds {st en total : Int}
    (h : max 0 (min st total) < max 0 (min en total)) :
    0 ≤ max 0 (min st total) ∧ max 0 (min en total) ≤ total := by
  omega

/-! ## Grid lemmas -/

lemma gridAux_mem {start_ms length_ms total_ms : Int} :
    ∀ {l : List Nat} {p : Int × Int}, p ∈ gridAux start_ms length_ms total_ms l →
      0 ≤ p.1 ∧ p.1 < p.2 ∧ p.2 ≤ total_ms := by
  intro l
  induction l with
  | nil => intro p h; simp [gridAux] at h
  | cons i is ih =>
    intro p h
    rw [gridAux] at h
    split at h
    · simp at h
    · rcases List.mem_cons.mp h with h' | h'
      · subst h'
        refine ⟨?_, ?_, ?_⟩ <;> omega
      · exact ih h'

lemma gridAux_eq_takeWhile (start_ms length_ms total_ms : Int) :
    ∀ l : List Nat,
      gridAux start_ms length_ms total_ms l =
        (l.map (fun (i : Nat) => clamp_segment (start_ms + (i : Int) * length_ms)
          (start_ms + (i : Int) * length_ms + length_ms) total_ms)).takeWhile
          (fun p => decide (p.1 < p.2)) := by
  intro l
  induction l with
  | nil => rfl
  | cons i is ih =>
    simp only [clamp_segment] at ih ⊢
    rw [gridAux, List.map_cons, List.takeWhile_cons]
    simp only [decide_eq_true_eq]
    split_ifs with h1 h2
    · omega
    · rfl
    · rw [ih]
    · omega

/-- C3: `grid_cuts` computes, for each ordinal `i` in `0..count-1`, the raw
range `[start_ms + i*length_ms, start_ms + (i+1)*length_ms)`, clamps both
endpoints into `[0, total_ms]`, and stops generating at the first empty or
inverted clamped range rather than skipping it; in particular
`grid_cuts 0 3 1000 2500 = [(0,1000),(1000,2000),(2000,2500)]` and
`grid_cuts 3000 5 1000 2500 = []`. -/
theorem C3_grid_cuts_spec :
    (∀ start_ms count length_ms total_ms : Int,
      grid_cuts start_ms count length_ms total_ms =
        ((List.range count.toNat).map (fun (i : Nat) =>
          clamp_segment (start_ms + (i : Int) * length_ms)
            (start_ms + (i : Int) * length_ms + length_ms) total_ms)).takeWhile
          (fun p => decide (p.1 < p.2))) ∧
    grid_cuts 0 3 1000 2500 = [(0, 1000), (1000, 2000), (2000, 2500)] ∧
    grid_cuts 3000 5 1000 2500 = [] := by
  refine ⟨fun s c l t => ?_, by decide, by decide⟩
  exact gridAux_eq_takeWhile s l t (List.range c.toNat)

/-- C9: `mmss` rounds its millisecond argument to a nearest whole second
(`|2*(1000*s - ms)| ≤ 1000`), and formats that second count as zero-padded
`MM:SS` with minutes `s // 60` and seconds `s % 60` in `0..59`; in
particular `mmss 90000 = "01:30"` and `mmss 59999 = "01:00"`. -/
theorem C9_mmss_rounds_to_nearest_second :
    (∀ ms : Int,
      |2 * (pyRound ⟨ms, 1000⟩ * 1000 - ms)| ≤ 1000 ∧
      mmss ms = fmt02 ((pyRound ⟨ms, 1000⟩).fdiv 60) ++ ":" ++
        fmt02 ((pyRound ⟨ms, 1000⟩).fmod 60) ∧
      0 ≤ (pyRound ⟨ms, 1000⟩).fmod 60 ∧ (pyRound ⟨ms, 1000⟩).fmod 60 < 60) ∧
    mmss 90000 = "01:30" ∧ mmss 59999 = "01:00" := by
  refine ⟨fun ms => ⟨?_, rfl, Int.fmod_nonneg' _ (by norm_num),
    Int.fmod_lt_of_pos _ (by norm_num)⟩, by decide, by decide⟩
  exact pyRound_nearest ⟨ms, 1000⟩ (by norm_num)

/-! ## Except helpers -/

lemma ebind_ok {α β : Type} (a : α) (f : α → Except String β) :
    (Except.ok a >>= f) = f a := rfl

lemma ebind_error {α β : Type} (e : String) (f : α → Except String β) :
    ((Except.error e : Except String α) >>= f) = Except.error e := rfl

lemma mem_ite_cons {α : Type} {c : Prop} [Decidable c] {q : α} {l : List α} {p : α}
    (h : p ∈ if c then q :: l else l) : (c ∧ p = q) ∨ p ∈ l := by
  by_cases hc : c
  · rw [if_pos hc] at h
    rcases List.mem_cons.mp h with h' | h'
    · exact Or.inl ⟨hc, h'⟩
    · exact Or.inr h'
  · rw [if_neg hc] at h
    exact Or.inr h

/-! ## CSV loader lemmas -/

lemma csvRowsAux_mem {i_s i_e i_d : Option Nat} {total : Int} :
    ∀ {rows : List (List String)} {cuts : List (Int × Int)},
      csvRowsAux i_s i_e i_d total rows = Except.ok cuts →
      ∀ p ∈ cuts, 0 ≤ p.1 ∧ p.1 < p.2 ∧ p.2 ≤ total := by
  intro rows
  induction rows with
  | nil =>
    intro cuts h p hp
    rw [csvRowsAux] at h
    cases h
    simp at hp
  | cons r rs ih =>
    intro cuts h p hp
    rw [csvRowsAux] at h
    split at h
    · exact ih h p hp
    · cases hres : resolveRow i_s i_e i_d (r.map strip) with
      | error e => rw [hres, ebind_error] at h; cases h
      | ok t =>
        obtain ⟨s1, s2, ue⟩ := t
        rw [hres, ebind_ok] at h
        dsimp only at h
        cases hst : parse_time s1 with
        | none => rw [hst] at h; dsimp only at h; rw [ebind_error] at h; cases h
        | some a =>
          rw [hst] at h
          dsimp only at h
          rw [ebind_ok] at h
          cases hsec : parse_time s2 with
          | none => rw [hsec] at h; dsimp only at h; rw [ebind_error] at h; cases h
          | some b =>
            rw [hsec] at h
            dsimp only at h
            rw [ebind_ok] at h
            cases hrec : csvRowsAux i_s i_e i_d total rs with
            | error e => rw [hrec, ebind_error] at h; cases h
            | ok rest =>
              rw [hrec, ebind_ok] at h
              cases h
              generalize (if ue = true then b else a + b) = X at hp
              rcases mem_ite_cons hp with ⟨hlt, rfl⟩ | h'
              · exact ⟨by omega, by omega, by omega⟩
              · exact ih hrec p h'

lemma load_timestamps_csv_mem {rows : List (List String)} {total : Int}
    {cuts : List (Int × Int)} (h : load_timestamps_csv rows total = Except.ok cuts) :
    ∀ p ∈ cuts, 0 ≤ p.1 ∧ p.1 < p.2 ∧ p.2 ≤ total := by
  unfold load_timestamps_csv at h
  dsimp only at h
  split at h <;> exact fun p hp => csvRowsAux_mem h p hp

lemma resolveRow_end {i_s i_e i_d : Option Nat} {row : List String} {a b : String}
    (hs : cellVal row i_s = some a) (he : cellVal row i_e = some b) :
    resolveRow i_s i_e i_d row = Except.ok (a, b, true) := by
  unfold resolveRow
  rw [hs, he]

lemma resolveRow_dur {i_s i_e i_d : Option Nat} {row : List String} {a b : String}
    (hs : cellVal row i_s = some a) (he : cellVal row i_e = none)
    (hd : cellVal row i_d = some b) :
    resolveRow i_s i_e i_d row = Except.ok (a, b, false) := by
  unfold resolveRow
  rw [hs, he, hd]

lemma resolveRow_fallback {i_s i_e i_d : Option Nat} {row : List String}
    {a b : String} {rest : List String}
    (hfb : cellVal row i_s = none ∨ (cellVal row i_e = none ∧ cellVal row i_d = none))
    (hpop : row.filter (fun c => c ≠ "") = a :: b :: rest) :
    resolveRow i_s i_e i_d row = Except.ok (a, b, false) := by
  unfold resolveRow
  rcases hfb with hs | ⟨he, hd⟩
  · rw [hs, hpop]
  · cases hs : cellVal row i_s with
    | none => rw [hpop]
    | some st => rw [he, hd, hpop]

lemma csvRowsAux_cons_spec {i_s i_e i_d : Option Nat} {total : Int}
    {r : List String} {rs : List (List String)} {s1 s2 : String} {ue : Bool} {a b : Int}
    (hne : ((r.map strip).all (fun c => c = "")) = false)
    (hres : resolveRow i_s i_e i_d (r.map strip) = Except.ok (s1, s2, ue))
    (ha : parse_time s1 = some a) (hb : parse_time s2 = some b) :
    csvRowsAux i_s i_e i_d total (r :: rs) =
      (csvRowsAux i_s i_e i_d total rs).map (fun rest =>
        if max 0 (min a total) < max 0 (min (if ue then b else a + b) total) then
          (max 0 (min a total), max 0 (min (if ue then b else a + b) total)) :: rest
        else rest) := by
  rw [csvRowsAux]
  rw [if_neg (by simp [hne])]
  rw [hres, ebind_ok]
  dsimp only
  rw [ha]
  dsimp only
  rw [ebind_ok]
  rw [hb]
  dsimp only
  rw [ebind_ok]
  cases hrec : csvRowsAux i_s i_e i_d total rs with
  | error e => rw [ebind_error]; rfl
  | ok rest => rw [ebind_ok]; rfl

/-- C5 counterexample: in positional-fallback mode (headerless table
`[["10","20"]]`), the claim predicts that the second value is treated as
an end time, i.e. the cut `(10000, 20000)`; the loader instead treats it
as a duration and returns `(10000, 30000)`. -/
theorem C5_fallback_counterexample :
    load_timestamps_csv [["10", "20"]] 100000 = Except.ok [(10000, 30000)] ∧
    load_timestamps_csv [["10", "20"]] 100000 ≠ Except.ok [(10000, 20000)] := by
  constructor <;> decide

/-- C5 (amended): for every data row, if the header resolved a start
column and the row's end column is populated, `end = parse(end cell)`;
otherwise if the duration column is populated, `end = start +
parse(duration cell)`; if start/second are not resolved via header roles,
the first two populated cells are used positionally and the second is
treated as a **duration** (not an end time); the emitted cut is the clamp
of `(start, end)`, dropped when collapsed, and output order is row order.
`[["Start","Duration"],["10","5"]]` yields `(10000, 15000)`. -/
theorem C5_csv_row_resolution :
    (∀ (i_s i_e i_d : Option Nat) (row : List String) (a b : String),
      cellVal row i_s = some a → cellVal row i_e = some b →
      resolveRow i_s i_e i_d row = Except.ok (a, b, true)) ∧
    (∀ (i_s i_e i_d : Option Nat) (row : List String) (a b : String),
      cellVal row i_s = some a → cellVal row i_e = none → cellVal row i_d = some b →
      resolveRow i_s i_e i_d row = Except.ok (a, b, false)) ∧
    (∀ (i_s i_e i_d : Option Nat) (row : List String) (a b : String) (rest : List String),
      (cellVal row i_s = none ∨ (cellVal row i_e = none ∧ cellVal row i_d = none)) →
      row.filter (fun c => c ≠ "") = a :: b :: rest →
      resolveRow i_s i_e i_d row = Except.ok (a, b, false)) ∧
    (∀ (i_s i_e i_d : Option Nat) (total : Int) (r : List String) (rs : List (List String))
        (s1 s2 : String) (ue : Bool) (a b : Int),
      ((r.map strip).all (fun c => c = "")) = false →
      resolveRow i_s i_e i_d (r.map strip) = Except.ok (s1, s2, ue) →
      parse_time s1 = some a → parse_time s2 = some b →
      csvRowsAux i_s i_e i_d total (r :: rs) =
        (csvRowsAux i_s i_e i_d total rs).map (fun rest =>
          if max 0 (min a total) < max 0 (min (if ue then b else a + b) total) then
            (max 0 (min a total), max 0 (min (if ue then b else a + b) total)) :: rest
          else rest)) ∧
    load_timestamps_csv [["Start", "Duration"], ["10", "5"]] 100000 =
      Except.ok [(10000, 15000)] ∧
    load_timestamps_csv [["30", "5"], ["10", "5"]] 100000 =
      Except.ok [(30000, 35000), (10000, 15000)] := by
  exact ⟨fun _ _ _ _ _ _ hs he => resolveRow_end hs he,
    fun _ _ _ _ _ _ hs he hd => resolveRow_dur hs he hd,
    fun _ _ _ _ _ _ _ hfb hpop => resolveRow_fallback hfb hpop,
    fun _ _ _ _ _ _ _ _ _ _ _ hne hres ha hb => csvRowsAux_cons_spec hne hres ha hb,
    by decide, by decide⟩

/-- C5 witness: the amended row-resolution rules applied at concrete
inputs. -/
theorem C5_witness :
    resolveRow (some 0) (some 1) none ["1", "2"] = Except.ok ("1", "2", true) ∧
    resolveRow (some 0) (some 1) (some 2) ["1", "", "2"] = Except.ok ("1", "2", false) ∧
    resolveRow none none none ["", "10", "20"] = Except.ok ("10", "20", false) ∧
    csvRowsAux none none none 100000 [["10", "20"]] = Except.ok [(10000, 30000)] := by
  refine ⟨C5_csv_row_resolution.1 (some 0) (some 1) none ["1", "2"] "1" "2"
      (by decide) (by decide),
    C5_csv_row_resolution.2.1 (some 0) (some 1) (some 2) ["1", "", "2"] "1" "2"
      (by decide) (by decide) (by decide),
    C5_csv_row_resolution.2.2.1 none none none ["", "10", "20"] "10" "20" [] (Or.inl rfl)
      (by decide),
    ?_⟩
  rw [C5_csv_row_resolution.2.2.2.1 none none none 100000 ["10", "20"] [] "10" "20" false
    10000 20000 (by decide) (by decide) (by decide) (by decide)]
  decide

/-! ## Excel loader lemmas -/

lemma excelRowSeg_mem {il ib ie : Nat} {total : Int} {row : List (Option XCell)}
    {seg : Segment} (h : excelRowSeg il ib ie total row = Except.ok (some seg)) :
    0 ≤ seg.start_ms ∧ seg.start_ms < seg.end_ms ∧ seg.end_ms ≤ total := by
  unfold excelRowSeg at h
  split at h
  · simp at h
  · dsimp only at h
    cases hl : (row.get? il).join with
    | none => rw [hl] at h; simp at h
    | some lc =>
      rw [hl] at h
      dsimp only at h
      split at h
      · simp at h
      · split at h
        · rename_i sc ec hb he
          cases hst : parse_excel_time (some sc) with
          | error e => rw [hst, ebind_error] at h; cases h
          | ok st =>
            rw [hst, ebind_ok] at h
            cases hen : parse_excel_time (some ec) with
            | error e => rw [hen, ebind_error] at h; cases h
            | ok en =>
              rw [hen, ebind_ok] at h
              dsimp only [clamp_segment] at h
              split at h
              · simp at h
              · cases h
                refine ⟨?_, ?_, ?_⟩ <;> simp only [] <;> omega
        · simp at h

lemma collectSegs_mem {il ib ie : Nat} {total : Int} :
    ∀ {rows : List (List (Option XCell))} {segs : List Segment},
      collectSegs il ib ie total rows = Except.ok segs →
      ∀ seg ∈ segs, 0 ≤ seg.start_ms ∧ seg.start_ms < seg.end_ms ∧ seg.end_ms ≤ total := by
  intro rows
  induction rows with
  | nil => intro segs h seg hs; rw [collectSegs] at h; cases h; simp at hs
  | cons r rs ih =>
    intro segs h seg hs
    rw [collectSegs] at h
    cases hrow : excelRowSeg il ib ie total r with
    | error e => rw [hrow, ebind_error] at h; cases h
    | ok s? =>
      rw [hrow, ebind_ok] at h
      cases hrec : collectSegs il ib ie total rs with
      | error e => rw [hrec, ebind_error] at h; cases h
      | ok rest =>
        rw [hrec, ebind_ok] at h
        cases s? with
        | none => cases h; exact ih hrec seg hs
        | some s0 =>
          cases h
          rcases List.mem_cons.mp hs with h' | h'
          · subst h'; exact excelRowSeg_mem hrow
          · exact ih hrec seg h'

lemma mem_insertByStart {x y : Segment} :
    ∀ {l : List Segment}, y ∈ insertByStart x l → y = x ∨ y ∈ l := by
  intro l
  induction l with
  | nil => intro h; rw [insertByStart] at h; exact Or.inl (List.mem_singleton.mp h)
  | cons z zs ih =>
    intro h
    rw [insertByStart] at h
    split at h
    · rcases List.mem_cons.mp h with h' | h'
      · exact Or.inl h'
      · exact Or.inr h'
    · rcases List.mem_cons.mp h with h' | h'
      · exact Or.inr (h' ▸ List.mem_cons_self z zs)
      · rcases ih h' with h'' | h''
        · exact Or.inl h''
        · exact Or.inr (List.mem_cons_of_mem z h'')

lemma mem_sortByStart {y : Segment} :
    ∀ {l : List Segment}, y ∈ sortByStart l → y ∈ l := by
  intro l
  induction l with
  | nil => intro h; rw [sortByStart] at h; exact h
  | cons z zs ih =>
    intro h
    rw [sortByStart] at h
    rcases mem_insertByStart h with h' | h'
    · exact h' ▸ List.mem_cons_self z zs
    · exact List.mem_cons_of_mem z (ih h')

lemma sheetSegments_mem {title : String} {rows : List (List (Option XCell))}
    {total : Int} {segs : List Segment}
    (h : sheetSegments title rows total = Except.ok segs) :
    ∀ seg ∈ segs, 0 ≤ seg.start_ms ∧ seg.start_ms < seg.end_ms ∧ seg.end_ms ≤ total := by
  unfold sheetSegments at h
  split at h
  · cases h; intro seg hs; simp at hs
  · split at h
    · rename_i il ib ie heq
      cases hc : collectSegs il ib ie total _ with
      | error e => rw [hc, ebind_error] at h; cases h
      | ok l =>
        rw [hc, ebind_ok] at h
        cases h
        intro seg hs
        exact collectSegs_mem hc seg (mem_sortByStart hs)
    · cases h

lemma dictInsert_mem {acc : List (String × List Segment)} {k : String}
    {v : List Segment} {ch : String × List Segment} (h : ch ∈ dictInsert acc k v) :
    ch ∈ acc ∨ ch = (k, v) := by
  unfold dictInsert at h
  split at h
  · rcases List.mem_map.mp h with ⟨p, hp, he⟩
    by_cases hk : p.1 = k
    · rw [if_pos hk] at he; exact Or.inr he.symm
    · rw [if_neg hk] at he; exact Or.inl (he ▸ hp)
  · rcases List.mem_append.mp h with h' | h'
    · exact Or.inl h'
    · exact Or.inr (List.mem_singleton.mp h')

lemma loadExcelAux_mem {total : Int} :
    ∀ {wbs : List (String × List (List (Option XCell)))}
      {acc chapters : List (String × List Segment)},
      (∀ ch ∈ acc, ∀ seg ∈ ch.2,
        0 ≤ seg.start_ms ∧ seg.start_ms < seg.end_ms ∧ seg.end_ms ≤ total) →
      loadExcelAux total wbs acc = Except.ok chapters →
      ∀ ch ∈ chapters, ∀ seg ∈ ch.2,
        0 ≤ seg.start_ms ∧ seg.start_ms < seg.end_ms ∧ seg.end_ms ≤ total := by
  intro wbs
  induction wbs with
  | nil => intro acc chapters hacc h; rw [loadExcelAux] at h; cases h; exact hacc
  | cons w ws ih =>
    intro acc chapters hacc h
    obtain ⟨title, rows⟩ := w
    rw [loadExcelAux] at h
    cases hs : sheetSegments title rows total with
    | error e => rw [hs, ebind_error] at h; cases h
    | ok segs =>
      rw [hs, ebind_ok] at h
      refine ih (fun ch hch seg hseg => ?_) h
      by_cases hz : segs = []
      · rw [if_pos hz] at hch; exact hacc ch hch seg hseg
      · rw [if_neg hz] at hch
        rcases dictInsert_mem hch with h' | h'
        · exact hacc ch h' seg hseg
        · subst h'
          exact sheetSegments_mem hs seg hseg

lemma load_timestamps_excel_mem {wb : List (String × List (List (Option XCell)))}
    {total : Int} {chapters : List (String × List Segment)}
    (h : load_timestamps_excel wb total = Except.ok chapters) :
    ∀ ch ∈ chapters, ∀ seg ∈ ch.2,
      0 ≤ seg.start_ms ∧ seg.start_ms < seg.end_ms ∧ seg.end_ms ≤ total := by
  unfold load_timestamps_excel at h
  cases hl : loadExcelAux total wb [] with
  | error e => rw [hl, ebind_error] at h; cases h
  | ok chapters' =>
    rw [hl, ebind_ok] at h
    split at h
    · cases h
    · cases h
      exact loadExcelAux_mem (fun ch hch => by simp at hch) hl

/-- C1: every range emitted by `grid_cuts`, `load_timestamps_csv` or
`load_timestamps_excel` satisfies `0 ≤ start_ms < end_ms ≤ total_ms`
after clamping; a range whose clamped end is `≤` its clamped start is
never emitted. -/
theorem C1_loader_range_invariant :
    (∀ start_ms count length_ms total_ms : Int,
      ∀ p ∈ grid_cuts start_ms count length_ms total_ms,
        0 ≤ p.1 ∧ p.1 < p.2 ∧ p.2 ≤ total_ms) ∧
    (∀ (rows : List (List String)) (total_ms : Int) (cuts : List (Int × Int)),
      load_timestamps_csv rows total_ms = Except.ok cuts →
      ∀ p ∈ cuts, 0 ≤ p.1 ∧ p.1 < p.2 ∧ p.2 ≤ total_ms) ∧
    (∀ (wb : List (String × List (List (Option XCell)))) (total_ms : Int)
        (chapters : List (String × List Segment)),
      load_timestamps_excel wb total_ms = Except.ok chapters →
      ∀ ch ∈ chapters, ∀ seg ∈ ch.2,
        0 ≤ seg.start_ms ∧ seg.start_ms < seg.end_ms ∧ seg.end_ms ≤ total_ms) :=
  ⟨fun _ _ _ _ _ hp => gridAux_mem hp,
   fun _ _ _ h p hp => load_timestamps_csv_mem h p hp,
   fun _ _ _ h => load_timestamps_excel_mem h⟩

/-- C1 witness: the invariant instantiated on one concrete output of each
loader. -/
theorem C1_witness :
    (0 ≤ ((2000 : Int), (2500 : Int)).1 ∧ ((2000 : Int), (2500 : Int)).1 <
      ((2000 : Int), (2500 : Int)).2 ∧ ((2000 : Int), (2500 : Int)).2 ≤ 2500) ∧
    (0 ≤ ((10000 : Int), (15000 : Int)).1 ∧ ((10000 : Int), (15000 : Int)).1 <
      ((10000 : Int), (15000 : Int)).2 ∧ ((10000 : Int), (15000 : Int)).2 ≤ 100000) ∧
    (0 ≤ (Segment.mk "V1" 10000 60000).start_ms ∧
      (Segment.mk "V1" 10000 60000).start_ms < (Segment.mk "V1" 10000 60000).end_ms ∧
      (Segment.mk "V1" 10000 60000).end_ms ≤ 1000000) :=
  ⟨C1_loader_range_invariant.1 0 3 1000 2500 (2000, 2500) (by decide),
   C1_loader_range_invariant.2.1 [["Start", "Duration"], ["10", "5"]] 100000
     [(10000, 15000)] (by decide) (10000, 15000) (by decide),
   C1_loader_range_invariant.2.2
     [("Sheet1",
       [[some (.str "Chapter Sloka"), some (.str "Beginning"), some (.str "Ending")],
        [some (.str "V2"), some (.str "1:40"), some (.str "2:00")],
        [some (.str "V1"), some (.str "0:10"), some (.str "1:00")]])] 1000000
     [("Sheet1", [⟨"V1", 10000, 60000⟩, ⟨"V2", 100000, 120000⟩])] (by decide)
     ("Sheet1", [⟨"V1", 10000, 60000⟩, ⟨"V2", 100000, 120000⟩]) (by decide)
     ⟨"V1", 10000, 60000⟩ (by decide)⟩

/-! ## String-handling lemmas -/

lemma obind_some {α β : Type} (a : α) (f : α → Option β) : (some a >>= f) = f a := rfl

lemma obind_none {α β : Type} (f : α → Option β) : ((none : Option α) >>= f) = none := rfl

lemma mem_pyStrip {x : Char} {l : List Char} (h : x ∈ pyStrip l) : x ∈ l := by
  unfold pyStrip at h
  rw [List.mem_reverse] at h
  have h2 : x ∈ (List.dropWhile Char.isWhitespace l).reverse :=
    (List.dropWhile_suffix _).subset h
  rw [List.mem_reverse] at h2
  exact (List.dropWhile_suffix _).subset h2

lemma dropWhile_head_false {p : Char → Bool} :
    ∀ {l : List Char} {c : Char} {r : List Char},
      List.dropWhile p l = c :: r → p c = false := by
  intro l
  induction l with
  | nil => intro c r h; simp [List.dropWhile] at h
  | cons a as ih =>
    intro c r h
    rw [List.dropWhile_cons] at h
    split at h
    · exact ih h
    · cases h
      rename_i hpa
      simpa using hpa

lemma dropWhile_eq_self_of_head {p : Char → Bool} {l : List Char}
    (h : ∀ c r, l = c :: r → p c = false) : List.dropWhile p l = l := by
  cases l with
  | nil => rfl
  | cons a as =>
    rw [List.dropWhile_cons, if_neg]
    rw [h a as rfl]
    simp

lemma pyStrip_no_ws_ends {l : List Char}
    (hhead : ∀ c r, l = c :: r → Char.isWhitespace c = false)
    (hlast : ∀ c, l.getLast? = some c → Char.isWhitespace c = false) :
    pyStrip l = l := by
  unfold pyStrip
  rw [dropWhile_eq_self_of_head hhead]
  rw [dropWhile_eq_self_of_head (fun c r hcr =>
    hlast c (by rw [← List.head?_reverse, hcr]; rfl))]
  exact List.reverse_reverse l

lemma pyStrip_idem (l : List Char) : pyStrip (pyStrip l) = pyStrip l := by
  apply pyStrip_no_ws_ends
  · intro c r hcr
    unfold pyStrip at hcr
    cases hA : List.dropWhile Char.isWhitespace l with
    | nil => rw [hA] at hcr; simp at hcr
    | cons a as =>
      have hwa := dropWhile_head_false hA
      have hlastB : (List.dropWhile Char.isWhitespace ((a :: as).reverse)).getLast? =
          some a := by
        obtain ⟨pre, hpre⟩ :=
          List.dropWhile_suffix (l := (a :: as).reverse) Char.isWhitespace
        have hBne : List.dropWhile Char.isWhitespace ((a :: as).reverse) ≠ [] := by
          intro hnil
          rw [List.dropWhile_eq_nil_iff] at hnil
          exact absurd (hnil a (by simp)) (by simp [hwa])
        calc (List.dropWhile Char.isWhitespace ((a :: as).reverse)).getLast?
            = (pre ++ List.dropWhile Char.isWhitespace ((a :: as).reverse)).getLast? :=
              (List.getLast?_append_of_ne_nil _ hBne).symm
          _ = ((a :: as).reverse).getLast? := by rw [hpre]
          _ = ((a :: as) : List Char).head? := List.getLast?_reverse _
          _ = some a := rfl
      rw [hA] at hcr
      have hhd : ((List.dropWhile Char.isWhitespace
          ((a :: as).reverse)).reverse).head? = some c := by rw [hcr]; rfl
      rw [List.head?_reverse, hlastB] at hhd
      cases hhd
      exact hwa
  · intro c hcl
    unfold pyStrip at hcl
    rw [List.getLast?_reverse] at hcl
    cases hB : List.dropWhile Char.isWhitespace
        ((List.dropWhile Char.isWhitespace l).reverse) with
    | nil => rw [hB] at hcl; cases hcl
    | cons b bs =>
      rw [hB] at hcl
      cases hcl
      exact dropWhile_head_false hB

lemma strip_strip (s : String) : strip (strip s) = strip s := by
  unfold strip
  rw [show (String.mk (pyStrip s.data)).data = pyStrip s.data from rfl, pyStrip_idem]

lemma splitOnChar_ne_nil (sep : Char) (l : List Char) : splitOnChar sep l ≠ [] := by
  induction l with
  | nil => simp [splitOnChar]
  | cons c cs ih =>
    rw [splitOnChar]
    split
    · simp
    · cases h : splitOnChar sep cs with
      | nil => simp
      | cons p ps => simp

lemma mem_splitOnChar {sep : Char} :
    ∀ {l part : List Char}, part ∈ splitOnChar sep l → ∀ {x : Char}, x ∈ part → x ∈ l := by
  intro l
  induction l with
  | nil =>
    intro part hp x hx
    rw [splitOnChar] at hp
    have := List.mem_singleton.mp hp
    subst this
    simp at hx
  | cons c cs ih =>
    intro part hp x hx
    rw [splitOnChar] at hp
    split at hp
    · rcases List.mem_cons.mp hp with h' | h'
      · subst h'; simp at hx
      · exact List.mem_cons_of_mem c (ih h' hx)
    · cases hsp : splitOnChar sep cs with
      | nil => exact absurd hsp (splitOnChar_ne_nil sep cs)
      | cons p ps =>
        rw [hsp] at hp
        rcases List.mem_cons.mp hp with h' | h'
        · subst h'
          rcases List.mem_cons.mp hx with h'' | h''
          · exact h'' ▸ List.mem_cons_self c cs
          · exact List.mem_cons_of_mem c
              (ih (show p ∈ splitOnChar sep cs by rw [hsp]; exact List.mem_cons_self p ps) h'')
        · exact List.mem_cons_of_mem c
            (ih (show part ∈ splitOnChar sep cs by rw [hsp]; exact List.mem_cons_of_mem p h') hx)

lemma splitOnChar_two_le_mem {sep : Char} :
    ∀ {l : List Char}, 2 ≤ (splitOnChar sep l).length → sep ∈ l := by
  intro l
  induction l with
  | nil => intro h; rw [splitOnChar] at h; simp at h
  | cons c cs ih =>
    intro h
    by_cases hc : c = sep
    · subst hc; exact List.mem_cons_self c cs
    · rw [splitOnChar, if_neg hc] at h
      cases hsp : splitOnChar sep cs with
      | nil => exact absurd hsp (splitOnChar_ne_nil sep cs)
      | cons p ps =>
        rw [hsp] at h
        simp only [List.length_cons] at h
        refine List.mem_cons_of_mem c (ih ?_)
        rw [hsp]
        simp only [List.length_cons]
        omega

/-! ## Nonnegativity of the parsers on minus-free input -/

lemma parseUnsignedDec_fields {cs : List Char} {f : Frac}
    (h : parseUnsignedDec cs = some f) : 0 ≤ f.num ∧ 0 < f.den := by
  unfold parseUnsignedDec at h
  dsimp only at h
  split at h
  · split at h
    · cases h
    · cases h
      exact ⟨Int.ofNat_nonneg _, by norm_num [fofInt]⟩
  · split at h
    · cases h
      constructor
      · have h10 : (0 : Int) ≤ (10 : Int) ^ (List.dropWhile Char.isDigit cs).tail.length :=
          pow_nonneg (by norm_num) _
        positivity
      · positivity
    · cases h
  · cases h

lemma parseDecimal_nonneg {s : String} {f : Frac} (hminus : ('-') ∉ s.data)
    (h : parseDecimal s = some f) : 0 ≤ f.num ∧ 0 < f.den := by
  unfold parseDecimal at h
  split at h
  · rename_i cs heq
    have : ('-') ∈ s.data := mem_pyStrip (by rw [heq]; exact List.mem_cons_self _ _)
    exact absurd this hminus
  · exact parseUnsignedDec_fields h
  · exact parseUnsignedDec_fields h

lemma parsePyInt_nonneg {s : String} {v : Int} (hminus : ('-') ∉ s.data)
    (h : parsePyInt s = some v) : 0 ≤ v := by
  unfold parsePyInt at h
  dsimp only at h
  split at h
  · rename_i cs heq
    have : ('-') ∈ s.data := mem_pyStrip (by rw [heq]; exact List.mem_cons_self _ _)
    exact absurd this hminus
  · split at h
    · cases h; exact Int.ofNat_nonneg _
    · cases h
  · split at h
    · cases h; exact Int.ofNat_nonneg _
    · cases h

lemma parseDecimal_den_pos {s : String} {f : Frac} (h : parseDecimal s = some f) :
    0 < f.den := by
  unfold parseDecimal at h
  split at h
  · cases hf : parseUnsignedDec _ with
    | none => rw [hf] at h; cases h
    | some g =>
      rw [hf] at h
      cases h
      exact (parseUnsignedDec_fields hf).2
  · exact (parseUnsignedDec_fields h).2
  · exact (parseUnsignedDec_fields h).2

lemma parse_time_nonneg {s : String} {v : Int} (hminus : ('-') ∉ s.data)
    (h : parse_time s = some v) : 0 ≤ v := by
  unfold parse_time at h
  dsimp only at h
  split at h
  · cases hS : parseDecimal (String.mk (pyStrip s.data)) with
    | none => rw [hS] at h; cases h
    | some S =>
      rw [hS] at h
      cases h
      have hm : ('-') ∉ (String.mk (pyStrip s.data)).data :=
        fun hx => hminus (mem_pyStrip hx)
      obtain ⟨hn, hd⟩ := parseDecimal_nonneg hm hS
      refine pyRound_nonneg _ ?_ ?_ <;> simp only [fmul, fofInt] <;> omega
  · split at h
    · rename_i mm ss heq
      have hmm : ('-') ∉ (String.mk mm).data := by
        intro hx
        exact hminus (mem_pyStrip (mem_splitOnChar (by rw [heq]; simp) hx))
      have hss : ('-') ∉ (String.mk ss).data := by
        intro hx
        exact hminus (mem_pyStrip (mem_splitOnChar (by rw [heq]; simp) hx))
      cases hM : parsePyInt (String.mk mm) with
      | none => rw [hM, obind_none] at h; cases h
      | some M =>
        rw [hM, obind_some] at h
        cases hS : parseDecimal (String.mk ss) with
        | none => rw [hS, obind_none] at h; cases h
        | some S =>
          rw [hS, obind_some] at h
          cases h
          have hM0 := parsePyInt_nonneg hmm hM
          obtain ⟨hn, hd⟩ := parseDecimal_nonneg hss hS
          refine pyRound_nonneg _ ?_ ?_ <;> simp only [fmul, fadd, fofInt]
          · nlinarith
          · nlinarith [mul_nonneg (mul_nonneg hM0 (by norm_num : (0:Int) ≤ 60))
              (le_of_lt hd)]
    · rename_i hh mm ss heq
      have hhh : ('-') ∉ (String.mk hh).data := by
        intro hx
        exact hminus (mem_pyStrip (mem_splitOnChar (by rw [heq]; simp) hx))
      have hmm : ('-') ∉ (String.mk mm).data := by
        intro hx
        exact hminus (mem_pyStrip (mem_splitOnChar (by rw [heq]; simp) hx))
      have hss : ('-') ∉ (String.mk ss).data := by
        intro hx
        exact hminus (mem_pyStrip (mem_splitOnChar (by rw [heq]; simp) hx))
      cases hH : parsePyInt (String.mk hh) with
      | none => rw [hH, obind_none] at h; cases h
      | some H =>
        rw [hH, obind_some] at h
        cases hM : parsePyInt (String.mk mm) with
        | none => rw [hM, obind_none] at h; cases h
        | some M =>
          rw [hM, obind_some] at h
          cases hS : parseDecimal (String.mk ss) with
          | none => rw [hS, obind_none] at h; cases h
          | some S =>
            rw [hS, obind_some] at h
            cases h
            have hH0 := parsePyInt_nonneg hhh hH
            have hM0 := parsePyInt_nonneg hmm hM
            obtain ⟨hn, hd⟩ := parseDecimal_nonneg hss hS
            refine pyRound_nonneg _ ?_ ?_ <;> simp only [fmul, fadd, fofInt]
            · nlinarith
            · nlinarith [mul_nonneg (mul_nonneg hH0 (by norm_num : (0:Int) ≤ 3600))
                (le_of_lt hd),
                mul_nonneg (mul_nonneg hM0 (by norm_num : (0:Int) ≤ 60)) (le_of_lt hd)]
    · cases h

lemma minutesSecondsFromString_nonneg {t : String} {sec rem : Int}
    (hminus : ('-') ∉ t.data) (h : minutesSecondsFromString t = Except.ok (sec, rem)) :
    0 ≤ sec ∧ 0 ≤ rem := by
  unfold minutesSecondsFromString at h
  dsimp only at h
  split at h
  · cases h
  · split at h
    · cases hp : parse_time (String.mk (pyStrip t.data)) with
      | none => rw [hp] at h; cases h
      | some p =>
        rw [hp] at h
        cases h
        have hp0 : 0 ≤ p := parse_time_nonneg (fun hx => hminus (mem_pyStrip hx)) hp
        exact ⟨Int.fdiv_nonneg hp0 (by norm_num), Int.fmod_nonneg' p (by norm_num)⟩
    · split at h
      · split at h
        · cases h
        · rename_i m hm
          cases h
          refine ⟨?_, le_refl 0⟩
          have hm0 : 0 ≤ m := by
            by_cases hms : (List.takeWhile (fun c => c ≠ '.') (pyStrip t.data)) = []
            · rw [if_pos hms] at hm
              cases hm
              norm_num
            · rw [if_neg hms] at hm
              refine parsePyInt_nonneg (fun hx => hminus ?_) hm
              exact mem_pyStrip ((List.takeWhile_prefix _).subset hx)
          have : (0:Int) ≤ max 0 (min (if (List.dropWhile (fun c => c ≠ '.')
              (pyStrip t.data)).tail.filter Char.isDigit = [] then 0
            else if ((List.dropWhile (fun c => c ≠ '.')
              (pyStrip t.data)).tail.filter Char.isDigit).length = 1 then
              (digitsVal ((List.dropWhile (fun c => c ≠ '.')
                (pyStrip t.data)).tail.filter Char.isDigit) : Int) * 10
            else (digitsVal (((List.dropWhile (fun c => c ≠ '.')
              (pyStrip t.data)).tail.filter Char.isDigit).take 2) : Int)) 59) :=
            le_max_left 0 _
          omega
      · split at h
        · rename_i q hq
          cases h
          refine ⟨?_, le_refl 0⟩
          obtain ⟨hn, hd⟩ := parseDecimal_nonneg (fun hx => hminus (mem_pyStrip hx)) hq
          refine pyRound_nonneg _ ?_ ?_ <;> simp only [fmul, fofInt] <;> omega
        · cases h

lemma parse_excel_time_str_nonneg {s : String} {v : Int} (hminus : ('-') ∉ s.data)
    (h : parse_excel_time (some (XCell.str s)) = Except.ok v) : 0 ≤ v := by
  unfold parse_excel_time at h
  dsimp only at h
  split at h
  · cases h
  · cases hms : minutesSecondsFromString (String.mk (pyStrip s.data)) with
    | error e => rw [hms, ebind_error] at h; cases h
    | ok pr =>
      obtain ⟨sec, rem⟩ := pr
      rw [hms, ebind_ok] at h
      dsimp only at h
      obtain ⟨hsec, hrem⟩ :=
        minutesSecondsFromString_nonneg (fun hx => hminus (mem_pyStrip hx)) hms
      split at h
      · cases h; omega
      · cases h
        refine pyRound_nonneg _ ?_ ?_ <;>
          simp only [fmul, fadd, fofInt, fdivInt] <;> omega

/-- C8 counterexample: `parse_time` accepts `"-5"` and returns the
negative value `-5000`, contradicting the claim that every accepted
input yields a nonnegative number of milliseconds. -/
theorem C8_counterexample :
    parse_time "-5" = some (-5000) ∧ ¬(0 ≤ (-5000 : Int)) := by
  constructor <;> decide

/-- C8 (amended): for every input **string without a minus sign** that
`parse_time` or `parse_excel_time` accepts, the returned millisecond
value is nonnegative.  (Inputs containing `-` can produce negative
values, as the counterexample shows.) -/
theorem C8_nonneg_on_minus_free_input :
    (∀ (s : String) (v : Int), ('-') ∉ s.data → parse_time s = some v → 0 ≤ v) ∧
    (∀ (s : String) (v : Int), ('-') ∉ s.data →
      parse_excel_time (some (XCell.str s)) = Except.ok v → 0 ≤ v) :=
  ⟨fun _ _ hm h => parse_time_nonneg hm h,
   fun _ _ hm h => parse_excel_time_str_nonneg hm h⟩

/-- C8 witness: nonnegativity instantiated at `"90"` and `"3.45"`. -/
theorem C8_witness : (0 ≤ (90000 : Int)) ∧ (0 ≤ (225000 : Int)) :=
  ⟨C8_nonneg_on_minus_free_input.1 "90" 90000 (by decide) (by decide),
   C8_nonneg_on_minus_free_input.2 "3.45" 225000 (by decide) (by decide)⟩

/-! ## C2: parse_time grammar -/

lemma frac_formula_zero (S : Frac) :
    fmul (fadd (fofInt ((0 * 60 + 0) * 60)) S) (fofInt 1000) = fmul S (fofInt 1000) := by
  simp only [fmul, fadd, fofInt, Frac.mk.injEq]
  constructor <;> ring_nf

lemma frac_formula_two (M : Int) (S : Frac) :
    fmul (fadd (fofInt ((0 * 60 + M) * 60)) S) (fofInt 1000) =
      fmul (fadd (fofInt (M * 60)) S) (fofInt 1000) := by
  simp only [fmul, fadd, fofInt, Frac.mk.injEq]
  constructor <;> ring_nf

lemma frac_formula_three (H M : Int) (S : Frac) :
    fmul (fadd (fofInt ((H * 60 + M) * 60)) S) (fofInt 1000) =
      fmul (fadd (fofInt (H * 3600 + M * 60)) S) (fofInt 1000) := by
  simp only [fmul, fadd, fofInt, Frac.mk.injEq]
  constructor <;> ring_nf

/-- C2: for every trimmed input, `parse_time` is determined by the colon
count — no colon: the whole string as (possibly fractional) seconds; one
colon: `minutes:seconds[.fraction]`; two colons:
`hours:minutes:seconds[.fraction]`; any other colon count fails — and the
result is `((h*60+m)*60+s)*1000` rounded to a nearest millisecond
(`pyRound`, whose nearest-integer property is stated as well).  In
particular `parse_time "90" = 90000`, `parse_time "01:30" = 90000`,
`parse_time "01:01:30" = 3690000` and `parse_time "1:2:3:4"` fails. -/
theorem C2_parse_time_grammar :
    (∀ (s : String) (S : Frac), (':') ∉ pyStrip s.data →
      parseDecimal (String.mk (pyStrip s.data)) = some S →
      parse_time s =
        some (pyRound (fmul (fadd (fofInt ((0 * 60 + 0) * 60)) S) (fofInt 1000)))) ∧
    (∀ (s : String) (mm ss : List Char) (M : Int) (S : Frac),
      splitOnChar (':') (pyStrip s.data) = [mm, ss] →
      parsePyInt (String.mk mm) = some M →
      parseDecimal (String.mk ss) = some S →
      parse_time s =
        some (pyRound (fmul (fadd (fofInt ((0 * 60 + M) * 60)) S) (fofInt 1000)))) ∧
    (∀ (s : String) (hh mm ss : List Char) (H M : Int) (S : Frac),
      splitOnChar (':') (pyStrip s.data) = [hh, mm, ss] →
      parsePyInt (String.mk hh) = some H →
      parsePyInt (String.mk mm) = some M →
      parseDecimal (String.mk ss) = some S →
      parse_time s =
        some (pyRound (fmul (fadd (fofInt ((H * 60 + M) * 60)) S) (fofInt 1000)))) ∧
    (∀ (s : String) (parts : List (List Char)),
      splitOnChar (':') (pyStrip s.data) = parts → 4 ≤ parts.length →
      parse_time s = none) ∧
    (∀ f : Frac, 0 < f.den → |2 * (pyRound f * f.den - f.num)| ≤ f.den) ∧
    parse_time "90" = some 90000 ∧ parse_time "01:30" = some 90000 ∧
    parse_time "01:01:30" = some 3690000 ∧ parse_time "1:2:3:4" = none := by
  refine ⟨?_, ?_, ?_, ?_, fun f hd => pyRound_nearest f hd,
    by decide, by decide, by decide, by decide⟩
  · intro s S hc hS
    unfold parse_time
    dsimp only
    rw [if_pos hc, hS, frac_formula_zero]
    rfl
  · intro s mm ss M S hsplit hM hS
    have hcol : (':') ∈ pyStrip s.data :=
      splitOnChar_two_le_mem (by rw [hsplit]; norm_num)
    unfold parse_time
    dsimp only
    rw [if_neg (fun hn => hn hcol), hsplit]
    dsimp only
    rw [hM, obind_some, hS, obind_some, frac_formula_two]
    rfl
  · intro s hh mm ss H M S hsplit hH hM hS
    have hcol : (':') ∈ pyStrip s.data :=
      splitOnChar_two_le_mem (by rw [hsplit]; norm_num)
    unfold parse_time
    dsimp only
    rw [if_neg (fun hn => hn hcol), hsplit]
    dsimp only
    rw [hH, obind_some, hM, obind_some, hS, obind_some, frac_formula_three]
    rfl
  · intro s parts hsplit hlen
    have hcol : (':') ∈ pyStrip s.data :=
      splitOnChar_two_le_mem (by rw [hsplit]; omega)
    unfold parse_time
    dsimp only
    rw [if_neg (fun hn => hn hcol), hsplit]
    rcases parts with _ | ⟨a, _ | ⟨b, _ | ⟨c, _ | ⟨d, rest⟩⟩⟩⟩ <;>
      simp only [List.length_nil, List.length_cons] at hlen <;> try omega
    rfl

/-- C2 witness: the grammar rules applied at `"90"`, `"01:30"` and
`"01:01:30"`, and failure at `"1:2:3:4"`. -/
theorem C2_witness :
    parse_time "90" =
      some (pyRound (fmul (fadd (fofInt ((0 * 60 + 0) * 60)) (fofInt 90)) (fofInt 1000))) ∧
    parse_time "01:30" =
      some (pyRound (fmul (fadd (fofInt ((0 * 60 + 1) * 60)) (fofInt 30)) (fofInt 1000))) ∧
    parse_time "01:01:30" =
      some (pyRound (fmul (fadd (fofInt ((1 * 60 + 1) * 60)) (fofInt 30)) (fofInt 1000))) ∧
    parse_time "1:2:3:4" = none :=
  ⟨C2_parse_time_grammar.1 "90" (fofInt 90) (by decide) (by decide),
   C2_parse_time_grammar.2.1 "01:30" ['0', '1'] ['3', '0'] 1 (fofInt 30)
     (by decide) (by decide) (by decide),
   C2_parse_time_grammar.2.2.1 "01:01:30" ['0', '1'] ['0', '1'] ['3', '0'] 1 1 (fofInt 30)
     (by decide) (by decide) (by decide) (by decide),
   C2_parse_time_grammar.2.2.2.1 "1:2:3:4" [['1'], ['2'], ['3'], ['4']]
     (by decide) (by decide)⟩

/-! ## C4: parse_excel_time textual grammar -/

lemma parse_time_strip (s : String) :
    parse_time (String.mk (pyStrip s.data)) = parse_time s := by
  unfold parse_time
  rw [show (String.mk (pyStrip s.data)).data = pyStrip s.data from rfl, pyStrip_idem]

lemma pyRound_sec_rem (sec rem : Int) :
    pyRound (fmul (fadd (fofInt sec) (fdivInt (fofInt rem) 1000)) (fofInt 1000)) =
      sec * 1000 + rem := by
  have hrepr : fmul (fadd (fofInt sec) (fdivInt (fofInt rem) 1000)) (fofInt 1000) =
      ⟨(sec * 1000 + rem) * 1000, 1000⟩ := by
    simp only [fmul, fadd, fofInt, fdivInt, Frac.mk.injEq]
    constructor <;> ring_nf
  rw [hrepr]
  exact pyRound_intMul _ _ (by norm_num)

lemma parse_excel_time_colon {t : String} {p : Int}
    (hc : (':') ∈ pyStrip t.data) (hp : parse_time t = some p) :
    parse_excel_time (some (XCell.str t)) = Except.ok p := by
  unfold parse_excel_time
  dsimp only
  rw [if_neg (by intro h0; rw [h0] at hc; simp at hc)]
  unfold minutesSecondsFromString
  rw [show (String.mk (pyStrip t.data)).data = pyStrip t.data from rfl, pyStrip_idem]
  rw [if_neg (by intro h0; rw [h0] at hc; simp at hc)]
  rw [if_pos hc]
  rw [parse_time_strip, hp]
  rw [ebind_ok]
  dsimp only
  split
  · rename_i hrem
    have hdm := Int.fdiv_add_fmod p 1000
    congr 1
    omega
  · rename_i hrem
    rw [pyRound_sec_rem]
    have hdm := Int.fdiv_add_fmod p 1000
    congr 1
    omega

lemma parse_excel_time_dot {t : String} {m : Int}
    (hne : pyStrip t.data ≠ [])
    (hc : (':') ∉ pyStrip t.data)
    (hd : ('.') ∈ pyStrip t.data)
    (hm : (if (pyStrip t.data).takeWhile (fun c => c ≠ '.') = [] then some 0
      else parsePyInt (String.mk ((pyStrip t.data).takeWhile (fun c => c ≠ '.')))) =
        some m) :
    parse_excel_time (some (XCell.str t)) =
      Except.ok ((m * 60 + max 0 (min (secondsShorthand
        ((((pyStrip t.data).dropWhile (fun c => c ≠ '.')).drop 1).filter Char.isDigit))
        59)) * 1000) := by
  unfold parse_excel_time
  dsimp only
  rw [if_neg hne]
  unfold minutesSecondsFromString
  rw [show (String.mk (pyStrip t.data)).data = pyStrip t.data from rfl, pyStrip_idem]
  rw [if_neg hne, if_neg hc, if_pos hd]
  dsimp only
  rw [hm]
  rw [ebind_ok]
  rfl

lemma parse_excel_time_plain {t : String} {q : Frac}
    (hne : pyStrip t.data ≠ [])
    (hc : (':') ∉ pyStrip t.data)
    (hd : ('.') ∉ pyStrip t.data)
    (hq : parseDecimal (String.mk (pyStrip t.data)) = some q) :
    parse_excel_time (some (XCell.str t)) =
      Except.ok (pyRound (fmul q (fofInt 60)) * 1000) := by
  unfold parse_excel_time
  dsimp only
  rw [if_neg hne]
  unfold minutesSecondsFromString
  rw [show (String.mk (pyStrip t.data)).data = pyStrip t.data from rfl, pyStrip_idem]
  rw [if_neg hne, if_neg hc, if_neg hd]
  have hstrip : String.mk (pyStrip (String.mk (pyStrip t.data)).data) =
      String.mk (pyStrip t.data) := by
    rw [show (String.mk (pyStrip t.data)).data = pyStrip t.data from rfl, pyStrip_idem]
  rw [hq]
  rw [ebind_ok]
  rfl

/-- C4: a textual spreadsheet cell with a colon goes through the standard
`parse_time` grammar; with a dot but no colon it is the `minutes.seconds`
shorthand (digit string after the first dot, truncated to two digits, a
single digit scaled ×10, clamped to at most 59 seconds); otherwise it is
a floating-point number of minutes.  `"3.45"` parses to 225000 ms and
`"3.5"` to 230000 ms. -/
theorem C4_parse_excel_time_textual :
    (∀ (t : String) (p : Int), (':') ∈ pyStrip t.data → parse_time t = some p →
      parse_excel_time (some (XCell.str t)) = Except.ok p) ∧
    (∀ (t : String) (m : Int), pyStrip t.data ≠ [] → (':') ∉ pyStrip t.data →
      ('.') ∈ pyStrip t.data →
      (if (pyStrip t.data).takeWhile (fun c => c ≠ '.') = [] then some 0
        else parsePyInt (String.mk ((pyStrip t.data).takeWhile (fun c => c ≠ '.')))) =
          some m →
      parse_excel_time (some (XCell.str t)) =
        Except.ok ((m * 60 + max 0 (min (secondsShorthand
          ((((pyStrip t.data).dropWhile (fun c => c ≠ '.')).drop 1).filter
            Char.isDigit)) 59)) * 1000)) ∧
    (∀ (t : String) (q : Frac), pyStrip t.data ≠ [] → (':') ∉ pyStrip t.data →
      ('.') ∉ pyStrip t.data → parseDecimal (String.mk (pyStrip t.data)) = some q →
      parse_excel_time (some (XCell.str t)) =
        Except.ok (pyRound (fmul q (fofInt 60)) * 1000)) ∧
    parse_excel_time (some (XCell.str "3.45")) = Except.ok 225000 ∧
    parse_excel_time (some (XCell.str "3.5")) = Except.ok 230000 :=
  ⟨fun _ _ hc hp => parse_excel_time_colon hc hp,
   fun _ _ hne hc hd hm => parse_excel_time_dot hne hc hd hm,
   fun _ _ hne hc hd hq => parse_excel_time_plain hne hc hd hq,
   by decide, by decide⟩

/-- C4 witness: the three textual grammars applied at `"1:30"`, `"3.45"`
and `"2"`. -/
theorem C4_witness :
    parse_excel_time (some (XCell.str "1:30")) = Except.ok 90000 ∧
    parse_excel_time (some (XCell.str "3.45")) =
      Except.ok ((3 * 60 + max 0 (min (secondsShorthand
        ((((pyStrip ("3.45" : String).data).dropWhile (fun c => c ≠ '.')).drop 1).filter
          Char.isDigit)) 59)) * 1000) ∧
    parse_excel_time (some (XCell.str "2")) =
      Except.ok (pyRound (fmul (fofInt 2) (fofInt 60)) * 1000) :=
  ⟨C4_parse_excel_time_textual.1 "1:30" 90000 (by decide) (by decide),
   C4_parse_excel_time_textual.2.1 "3.45" 3 (by decide) (by decide) (by decide) (by decide),
   C4_parse_excel_time_textual.2.2.1 "2" (fofInt 2) (by decide) (by decide) (by decide)
     (by decide)⟩

/-! ## C6: header-role detection -/

lemma firstIdxAux_none_iff (p : String → Bool) :
    ∀ (l : List String) (i : Nat),
      firstIdxAux p l i = none ↔ ∀ x ∈ l, p x = false := by
  intro l
  induction l with
  | nil => intro i; simp [firstIdxAux]
  | cons n ns ih =>
    intro i
    rw [firstIdxAux]
    by_cases hp : p n = true
    · rw [if_pos hp]
      constructor
      · intro h0; cases h0
      · intro hall; exact absurd (hall n (List.mem_cons_self n ns)) (by simp [hp])
    · rw [if_neg hp]
      rw [ih]
      constructor
      · intro hall x hx
        rcases List.mem_cons.mp hx with h' | h'
        · subst h'; simpa using hp
        · exact hall x h'
      · intro hall x hx
        exact hall x (List.mem_cons_of_mem n hx)

lemma firstIdxAux_some_iff (p : String → Bool) :
    ∀ (l : List String) (i j : Nat),
      firstIdxAux p l i = some j ↔
        ∃ pre x suf, l = pre ++ x :: suf ∧ p x = true ∧
          (∀ y ∈ pre, p y = false) ∧ j = i + pre.length := by
  intro l
  induction l with
  | nil =>
    intro i j
    constructor
    · intro h0; cases h0
    · rintro ⟨pre, x, suf, hl, _⟩
      cases pre <;> simp_all
  | cons n ns ih =>
    intro i j
    rw [firstIdxAux]
    by_cases hp : p n = true
    · rw [if_pos hp]
      constructor
      · intro h0
        cases h0
        exact ⟨[], n, ns, rfl, hp, by simp, by simp⟩
      · rintro ⟨pre, x, suf, hl, hx, hpre, hj⟩
        cases pre with
        | nil =>
          simp only [List.nil_append, List.cons.injEq] at hl
          simp [hj]
        | cons z zs =>
          simp only [List.cons_append, List.cons.injEq] at hl
          exact absurd (hpre z (List.mem_cons_self z zs)) (by rw [← hl.1]; simp [hp])
    · rw [if_neg hp]
      rw [ih]
      constructor
      · rintro ⟨pre, x, suf, hl, hx, hpre, hj⟩
        refine ⟨n :: pre, x, suf, by rw [hl]; rfl, hx, ?_, by simp; omega⟩
        intro y hy
        rcases List.mem_cons.mp hy with h' | h'
        · subst h'; simpa using hp
        · exact hpre y h'
      · rintro ⟨pre, x, suf, hl, hx, hpre, hj⟩
        cases pre with
        | nil =>
          simp only [List.nil_append, List.cons.injEq] at hl
          exact absurd hx (by rw [← hl.1]; simpa using hp)
        | cons z zs =>
          simp only [List.cons_append, List.cons.injEq] at hl
          refine ⟨zs, x, suf, hl.2, hx, fun y hy => hpre y (List.mem_cons_of_mem z hy), ?_⟩
          simp only [List.length_cons] at hj
          omega

lemma findColAux_eq_firstIdx (kws : List String) :
    ∀ (l : List String) (i : Nat),
      findColAux kws l i =
        firstIdxAux (fun n => kws.any (fun kw => n = kw ∨ strStartsWith n kw)) l i := by
  intro l
  induction l with
  | nil => intro i; rfl
  | cons n ns ih =>
    intro i
    rw [findColAux, firstIdxAux]
    split
    · rfl
    · exact ih (i + 1)

lemma roleStep (P : String → Prop) [DecidablePred P] (n : String) (ns : List String)
    (i : Nat) (acc : Option Nat) :
    ((if acc = none ∧ P n then some i else acc) <|>
        firstIdxAux (fun x => decide (P x)) ns (i + 1)) =
      (acc <|> firstIdxAux (fun x => decide (P x)) (n :: ns) i) := by
  rw [firstIdxAux]
  cases acc with
  | some v => simp
  | none =>
    by_cases hP : P n
    · simp [hP]
    · simp [hP]

lemma excelRolesAux_eq :
    ∀ (hs : List String) (i : Nat) (l b e : Option Nat),
      excelRolesAux hs i (l, b, e) =
        (l <|> firstIdxAux
          (fun h => decide (h ∈ ["chaptersloka", "verse", "sloka", "name", "label"])) hs i,
         b <|> firstIdxAux (fun h => decide (h ∈ ["beginning", "begin", "start"])) hs i,
         e <|> firstIdxAux (fun h => decide (h ∈ ["ending", "end", "finish"])) hs i) := by
  intro hs
  induction hs with
  | nil => intro i l b e; rw [excelRolesAux]; cases l <;> cases b <;> cases e <;> rfl
  | cons h hs ih =>
    intro i l b e
    rw [excelRolesAux]
    rw [ih]
    refine congrArg₂ Prod.mk ?_ (congrArg₂ Prod.mk ?_ ?_)
    · exact roleStep _ h hs i _
    · exact roleStep _ h hs i _
    · exact roleStep _ h hs i _

/-- C6 counterexample: the claim's keyword sets and exact-or-prefix rule
do not describe the sheet loader.  A normalized header `"stop"` gets no
end role from the sheet loader although the claimed rule assigns it
column 0; a normalized header `"chaptersloka"` (from `"Chapter Sloka"`)
gets the label role although the claimed set `{chapterloka, ...}` does
not match it. -/
theorem C6_counterexample :
    ((excelRoles ["stop"]).2.2 = none ∧
      find_column ["stop"] ["end", "stop", "finish", "ending"] = some 0 ∧
      (excelRoles ["stop"]).2.2 ≠ find_column ["stop"] ["end", "stop", "finish", "ending"]) ∧
    (normalize_header "Chapter Sloka" = "chaptersloka" ∧
      (excelRoles ["chaptersloka"]).1 = some 0 ∧
      find_column ["chaptersloka"] ["chapterloka", "verse", "sloka", "name", "label"] = none ∧
      (excelRoles ["chaptersloka"]).1 ≠
        find_column ["chaptersloka"] ["chapterloka", "verse", "sloka", "name", "label"]) := by
  decide

/-- C6 (amended): the flat-table loader's `find_column` assigns each role
the first column, left to right, whose normalized header equals or starts
with one of its keywords (start → {start, begin}, end → {end, stop,
finish}, duration → {duration, length, dur}); the sheet loader matches
**exactly** (no prefix) against label → {chaptersloka, verse, sloka,
name, label}, start → {beginning, begin, start}, end → {ending, end,
finish}, first matching column winning for each role. -/
theorem C6_header_role_detection :
    (∀ (header_norm : List String) (kws : List String),
      find_column header_norm kws =
        firstIdxAux (fun n => kws.any (fun kw => n = kw ∨ strStartsWith n kw))
          header_norm 0) ∧
    (∀ headers : List String,
      excelRoles headers =
        (firstIdxAux
          (fun h => decide (h ∈ ["chaptersloka", "verse", "sloka", "name", "label"]))
          headers 0,
         firstIdxAux (fun h => decide (h ∈ ["beginning", "begin", "start"])) headers 0,
         firstIdxAux (fun h => decide (h ∈ ["ending", "end", "finish"])) headers 0)) ∧
    (∀ (p : String → Bool) (l : List String) (i j : Nat),
      firstIdxAux p l i = some j ↔
        ∃ pre x suf, l = pre ++ x :: suf ∧ p x = true ∧
          (∀ y ∈ pre, p y = false) ∧ j = i + pre.length) ∧
    (∀ (p : String → Bool) (l : List String) (i : Nat),
      firstIdxAux p l i = none ↔ ∀ x ∈ l, p x = false) := by
  refine ⟨fun header kws => findColAux_eq_firstIdx kws header 0, fun headers => ?_,
    fun p l i j => firstIdxAux_some_iff p l i j, fun p l i => firstIdxAux_none_iff p l i⟩
  rw [excelRoles, excelRolesAux_eq]
  rfl

/-- C6 witness: the amended detection rules applied at a concrete header
row. -/
theorem C6_witness :
    find_column ["verse", "starting", "length"] ["start", "begin"] =
      firstIdxAux (fun n => ["start", "begin"].any
        (fun kw => n = kw ∨ strStartsWith n kw)) ["verse", "starting", "length"] 0 ∧
    firstIdxAux (fun n => ["start", "begin"].any
      (fun kw => n = kw ∨ strStartsWith n kw)) ["verse", "starting", "length"] 0 = some 1 :=
  ⟨C6_header_role_detection.1 ["verse", "starting", "length"] ["start", "begin"],
   by decide⟩

/-! ## C7: Excel loader error-handling contract -/

lemma loadExcelAux_nonempty {total : Int} :
    ∀ {wbs : List (String × List (List (Option XCell)))}
      {acc chapters : List (String × List Segment)},
      (∀ ch ∈ acc, ch.2 ≠ []) → loadExcelAux total wbs acc = Except.ok chapters →
      ∀ ch ∈ chapters, ch.2 ≠ [] := by
  intro wbs
  induction wbs with
  | nil => intro acc chapters hacc h; rw [loadExcelAux] at h; cases h; exact hacc
  | cons w ws ih =>
    intro acc chapters hacc h
    obtain ⟨title, rows⟩ := w
    rw [loadExcelAux] at h
    cases hs : sheetSegments title rows total with
    | error e => rw [hs, ebind_error] at h; cases h
    | ok segs =>
      rw [hs, ebind_ok] at h
      refine ih (fun ch hch => ?_) h
      by_cases hz : segs = []
      · rw [if_pos hz] at hch; exact hacc ch hch
      · rw [if_neg hz] at hch
        rcases dictInsert_mem hch with h' | h'
        · exact hacc ch h'
        · rw [h']; exact hz

lemma loadExcelAux_sheets_ok {total : Int} :
    ∀ {wbs : List (String × List (List (Option XCell)))}
      {acc chapters : List (String × List Segment)},
      loadExcelAux total wbs acc = Except.ok chapters →
      ∀ s ∈ wbs, ∃ segs, sheetSegments s.1 s.2 total = Except.ok segs := by
  intro wbs
  induction wbs with
  | nil => intro acc chapters h s hs; simp at hs
  | cons w ws ih =>
    intro acc chapters h s hs
    obtain ⟨title, rows⟩ := w
    rw [loadExcelAux] at h
    cases hsheet : sheetSegments title rows total with
    | error e => rw [hsheet, ebind_error] at h; cases h
    | ok segs =>
      rw [hsheet, ebind_ok] at h
      rcases List.mem_cons.mp hs with h' | h'
      · subst h'; exact ⟨segs, hsheet⟩
      · exact ih h s h'

lemma loadExcelAux_omit {total : Int} {title : String}
    {rows : List (List (Option XCell))}
    {wb2 : List (String × List (List (Option XCell)))}
    (hempty : sheetSegments title rows total = Except.ok []) :
    ∀ (wb1 : List (String × List (List (Option XCell))))
      (acc : List (String × List Segment)),
      loadExcelAux total (wb1 ++ (title, rows) :: wb2) acc =
        loadExcelAux total (wb1 ++ wb2) acc := by
  intro wb1
  induction wb1 with
  | nil =>
    intro acc
    rw [List.nil_append, List.nil_append, loadExcelAux, hempty, ebind_ok, if_pos rfl]
  | cons w ws ih =>
    intro acc
    obtain ⟨t, r⟩ := w
    rw [List.cons_append, List.cons_append, loadExcelAux, loadExcelAux]
    cases hs : sheetSegments t r total with
    | error e => rw [ebind_error, ebind_error]
    | ok segs => rw [ebind_ok, ebind_ok]; exact ih _

lemma loadExcelAux_all_empty {total : Int} :
    ∀ {wbs : List (String × List (List (Option XCell)))}
      (acc : List (String × List Segment)),
      (∀ s ∈ wbs, sheetSegments s.1 s.2 total = Except.ok []) →
      loadExcelAux total wbs acc = Except.ok acc := by
  intro wbs
  induction wbs with
  | nil => intro acc _; rfl
  | cons w ws ih =>
    intro acc hall
    obtain ⟨t, r⟩ := w
    rw [loadExcelAux]
    rw [show sheetSegments t r total = Except.ok [] from
      hall (t, r) (List.mem_cons_self _ _)]
    rw [ebind_ok, if_pos rfl]
    exact ih acc (fun s hs => hall s (List.mem_cons_of_mem _ hs))

lemma sheetSegments_missing_role {title : String} {rows : List (List (Option XCell))}
    {total : Int} {hdr : List (Option XCell)} {rest : List (List (Option XCell))}
    (hhdr : findHeader rows = some (hdr, rest))
    (hmiss : (excelRoles (sheetHeaders hdr)).1 = none ∨
      (excelRoles (sheetHeaders hdr)).2.1 = none ∨
      (excelRoles (sheetHeaders hdr)).2.2 = none) :
    sheetSegments title rows total =
      Except.error ("Sheet '" ++ title ++
        "' must contain 'Chapter Sloka', 'Beginning', and 'Ending' columns.") := by
  rcases hr : excelRoles (sheetHeaders hdr) with ⟨l, b, e⟩
  rw [hr] at hmiss
  dsimp only at hmiss
  unfold sheetSegments
  rw [hhdr]
  dsimp only
  rw [hr]
  cases l <;> cases b <;> cases e <;> first
    | rfl
    | simp at hmiss

/-- C7: `load_timestamps_excel` returns one chapter per sheet yielding at
least one valid segment (chapter lists are nonempty, and a successful
load implies every sheet processed without error — a sheet whose detected
header lacks label/begin/end roles raises an error naming that sheet,
aborting the multi-sheet load); a sheet producing zero segments is
silently omitted; and if no sheet produces any segment the load fails
with the no-usable-data error. -/
theorem C7_excel_chapter_contract :
    (∀ (wb : List (String × List (List (Option XCell)))) (total : Int)
        (chapters : List (String × List Segment)),
      load_timestamps_excel wb total = Except.ok chapters →
      chapters ≠ [] ∧ ∀ ch ∈ chapters, ch.2 ≠ []) ∧
    (∀ (wb : List (String × List (List (Option XCell)))) (total : Int)
        (chapters : List (String × List Segment)),
      load_timestamps_excel wb total = Except.ok chapters →
      ∀ s ∈ wb, ∃ segs, sheetSegments s.1 s.2 total = Except.ok segs) ∧
    (∀ (wb1 wb2 : List (String × List (List (Option XCell)))) (title : String)
        (rows : List (List (Option XCell))) (total : Int),
      sheetSegments title rows total = Except.ok [] →
      load_timestamps_excel (wb1 ++ (title, rows) :: wb2) total =
        load_timestamps_excel (wb1 ++ wb2) total) ∧
    (∀ (wb : List (String × List (List (Option XCell)))) (total : Int),
      (∀ s ∈ wb, sheetSegments s.1 s.2 total = Except.ok []) →
      load_timestamps_excel wb total =
        Except.error "No usable data found in Excel file.") ∧
    (∀ (title : String) (rows : List (List (Option XCell))) (total : Int)
        (hdr : List (Option XCell)) (rest : List (List (Option XCell))),
      findHeader rows = some (hdr, rest) →
      ((excelRoles (sheetHeaders hdr)).1 = none ∨
        (excelRoles (sheetHeaders hdr)).2.1 = none ∨
        (excelRoles (sheetHeaders hdr)).2.2 = none) →
      sheetSegments title rows total =
        Except.error ("Sheet '" ++ title ++
          "' must contain 'Chapter Sloka', 'Beginning', and 'Ending' columns.")) ∧
    load_timestamps_excel
      [("Sheet1", [[some (.str "Chapter Sloka"), some (.str "Beginning")]])] 1000 =
      Except.error
        "Sheet 'Sheet1' must contain 'Chapter Sloka', 'Beginning', and 'Ending' columns." := by
  refine ⟨?_, ?_, ?_, ?_,
    fun _ _ _ _ _ hhdr hmiss => sheetSegments_missing_role hhdr hmiss, by decide⟩
  · intro wb total chapters h
    unfold load_timestamps_excel at h
    cases hl : loadExcelAux total wb [] with
    | error e => rw [hl, ebind_error] at h; cases h
    | ok chapters' =>
      rw [hl, ebind_ok] at h
      split at h
      · cases h
      · cases h
        rename_i hne
        exact ⟨hne, loadExcelAux_nonempty (fun ch hch => by simp at hch) hl⟩
  · intro wb total chapters h
    unfold load_timestamps_excel at h
    cases hl : loadExcelAux total wb [] with
    | error e => rw [hl, ebind_error] at h; cases h
    | ok chapters' => exact loadExcelAux_sheets_ok hl
  · intro wb1 wb2 title rows total hempty
    unfold load_timestamps_excel
    rw [loadExcelAux_omit hempty wb1 []]
  · intro wb total hall
    unfold load_timestamps_excel
    rw [loadExcelAux_all_empty [] hall, ebind_ok, if_pos rfl]

/-- C7 witness: the contract applied at concrete workbooks. -/
theorem C7_witness :
    ([("Sheet1", [⟨"V1", 10000, 60000⟩, ⟨"V2", 100000, 120000⟩])] ≠
        ([] : List (String × List Segment)) ∧
      ∀ ch ∈ [("Sheet1", [Segment.mk "V1" 10000 60000, Segment.mk "V2" 100000 120000])],
        ch.2 ≠ []) ∧
    load_timestamps_excel [("Empty", ([] : List (List (Option XCell))))] 5000 =
      Except.error "No usable data found in Excel file." :=
  ⟨C7_excel_chapter_contract.1
    [("Sheet1",
      [[some (.str "Chapter Sloka"), some (.str "Beginning"), some (.str "Ending")],
       [some (.str "V2"), some (.str "1:40"), some (.str "2:00")],
       [some (.str "V1"), some (.str "0:10"), some (.str "1:00")]])] 1000000
    [("Sheet1", [⟨"V1", 10000, 60000⟩, ⟨"V2", 100000, 120000⟩])] (by decide),
   C7_excel_chapter_contract.2.2.2.1 [("Empty", [])] 5000
     (fun s hs => by
       have : s = ("Empty", ([] : List (List (Option XCell)))) := by
         simpa using hs
       rw [this]
       decide)⟩

/-! ## C10: missing vs blank time cells in the Excel loader -/

lemma excelRowSeg_skip_missing {il ib ie : Nat} {total : Int}
    {row : List (Option XCell)} {lc : XCell}
    (hl : (row.get? il).join = some lc) (hlbl : strip (cellStr lc) ≠ "")
    (hmiss : (row.get? ib).join = none ∨ (row.get? ie).join = none) :
    excelRowSeg il ib ie total row = Except.ok none := by
  have hrow : row ≠ [] := by
    intro h0
    rw [h0] at hl
    simp at hl
  unfold excelRowSeg
  rw [if_neg hrow]
  dsimp only
  rw [hl]
  dsimp only
  rw [if_neg hlbl]
  rcases hmiss with hb | he
  · rw [hb]
  · rw [he]
    cases hbc : (row.get? ib).join <;> rfl

lemma parse_excel_time_blank {ws : String} (hws : strip ws = "") :
    parse_excel_time (some (XCell.str ws)) =
      Except.error "Empty time value in Excel sheet" := by
  have hnil : pyStrip ws.data = [] := congrArg String.data hws
  unfold parse_excel_time
  dsimp only
  rw [if_pos hnil]

lemma excelRowSeg_blank_start {il ib ie : Nat} {total : Int}
    {row : List (Option XCell)} {lc c : XCell} {ws : String}
    (hl : (row.get? il).join = some lc) (hlbl : strip (cellStr lc) ≠ "")
    (hb : (row.get? ib).join = some (XCell.str ws)) (hws : strip ws = "")
    (he : (row.get? ie).join = some c) :
    excelRowSeg il ib ie total row =
      Except.error "Empty time value in Excel sheet" := by
  have hrow : row ≠ [] := by
    intro h0
    rw [h0] at hl
    simp at hl
  unfold excelRowSeg
  rw [if_neg hrow]
  dsimp only
  rw [hl]
  dsimp only
  rw [if_neg hlbl, hb, he]
  dsimp only
  rw [parse_excel_time_blank hws, ebind_error]

lemma excelRowSeg_blank_end {il ib ie : Nat} {total : Int}
    {row : List (Option XCell)} {lc sc : XCell} {v : Int} {ws : String}
    (hl : (row.get? il).join = some lc) (hlbl : strip (cellStr lc) ≠ "")
    (hb : (row.get? ib).join = some sc) (hsv : parse_excel_time (some sc) = Except.ok v)
    (he : (row.get? ie).join = some (XCell.str ws)) (hws : strip ws = "") :
    excelRowSeg il ib ie total row =
      Except.error "Empty time value in Excel sheet" := by
  have hrow : row ≠ [] := by
    intro h0
    rw [h0] at hl
    simp at hl
  unfold excelRowSeg
  rw [if_neg hrow]
  dsimp only
  rw [hl]
  dsimp only
  rw [if_neg hlbl, hb, he]
  dsimp only
  rw [hsv, ebind_ok, parse_excel_time_blank hws, ebind_error]

lemma collectSegs_error {il ib ie : Nat} {total : Int} {r : List (Option XCell)}
    {rs : List (List (Option XCell))} {e : String}
    (h : excelRowSeg il ib ie total r = Except.error e) :
    collectSegs il ib ie total (r :: rs) = Except.error e := by
  rw [collectSegs, h, ebind_error]

lemma collectSegs_skip {il ib ie : Nat} {total : Int} {r : List (Option XCell)}
    {rs : List (List (Option XCell))}
    (h : excelRowSeg il ib ie total r = Except.ok none) :
    collectSegs il ib ie total (r :: rs) = collectSegs il ib ie total rs := by
  rw [collectSegs, h, ebind_ok]
  cases hrec : collectSegs il ib ie total rs with
  | error e => rw [ebind_error]
  | ok rest => rw [ebind_ok]

/-- C10: a data row with a non-empty label whose start or end cell is
absent (`None`) is silently skipped (`ok none`, contributing nothing),
while a row whose start or end cell holds an empty or whitespace-only
string raises the error "Empty time value in Excel sheet", which aborts
the row loop and with it the entire load. -/
theorem C10_excel_missing_vs_blank :
    (∀ (il ib ie : Nat) (total : Int) (row : List (Option XCell)) (lc : XCell),
      (row.get? il).join = some lc → strip (cellStr lc) ≠ "" →
      ((row.get? ib).join = none ∨ (row.get? ie).join = none) →
      excelRowSeg il ib ie total row = Except.ok none) ∧
    (∀ (il ib ie : Nat) (total : Int) (row : List (Option XCell)) (lc c : XCell)
        (ws : String),
      (row.get? il).join = some lc → strip (cellStr lc) ≠ "" →
      (row.get? ib).join = some (XCell.str ws) → strip ws = "" →
      (row.get? ie).join = some c →
      excelRowSeg il ib ie total row =
        Except.error "Empty time value in Excel sheet") ∧
    (∀ (il ib ie : Nat) (total : Int) (row : List (Option XCell)) (lc sc : XCell)
        (v : Int) (ws : String),
      (row.get? il).join = some lc → strip (cellStr lc) ≠ "" →
      (row.get? ib).join = some sc → parse_excel_time (some sc) = Except.ok v →
      (row.get? ie).join = some (XCell.str ws) → strip ws = "" →
      excelRowSeg il ib ie total row =
        Except.error "Empty time value in Excel sheet") ∧
    (∀ (il ib ie : Nat) (total : Int) (r : List (Option XCell))
        (rs : List (List (Option XCell))) (e : String),
      excelRowSeg il ib ie total r = Except.error e →
      collectSegs il ib ie total (r :: rs) = Except.error e) ∧
    (∀ (il ib ie : Nat) (total : Int) (r : List (Option XCell))
        (rs : List (List (Option XCell))),
      excelRowSeg il ib ie total r = Except.ok none →
      collectSegs il ib ie total (r :: rs) = collectSegs il ib ie total rs) ∧
    load_timestamps_excel
      [("S", [[some (.str "Chapter Sloka"), some (.str "Beginning"), some (.str "Ending")],
        [some (.str "X"), none, some (.str "2:00")],
        [some (.str "V"), some (.str "1:00"), some (.str "2:00")]])] 1000000 =
      Except.ok [("S", [⟨"V", 60000, 120000⟩])] ∧
    load_timestamps_excel
      [("S", [[some (.str "Chapter Sloka"), some (.str "Beginning"), some (.str "Ending")],
        [some (.str "X"), some (.str " "), some (.str "2:00")],
        [some (.str "V"), some (.str "1:00"), some (.str "2:00")]])] 1000000 =
      Except.error "Empty time value in Excel sheet" :=
  ⟨fun _ _ _ _ _ _ hl hlbl hmiss => excelRowSeg_skip_missing hl hlbl hmiss,
   fun _ _ _ _ _ _ _ _ hl hlbl hb hws he => excelRowSeg_blank_start hl hlbl hb hws he,
   fun _ _ _ _ _ _ _ _ _ hl hlbl hb hsv he hws =>
     excelRowSeg_blank_end hl hlbl hb hsv he hws,
   fun _ _ _ _ _ _ _ h => collectSegs_error h,
   fun _ _ _ _ _ _ h => collectSegs_skip h,
   by decide, by decide⟩

/-- C10 witness: the skip and abort behaviours at concrete rows. -/
theorem C10_witness :
    excelRowSeg 0 1 2 1000000 [some (.str "X"), none, some (.str "2:00")] =
      Except.ok none ∧
    excelRowSeg 0 1 2 1000000 [some (.str "X"), some (.str " "), some (.str "2:00")] =
      Except.error "Empty time value in Excel sheet" ∧
    excelRowSeg 0 1 2 1000000 [some (.str "X"), some (.str "1:00"), some (.str "  ")] =
      Except.error "Empty time value in Excel sheet" :=
  ⟨C10_excel_missing_vs_blank.1 0 1 2 1000000 [some (.str "X"), none, some (.str "2:00")]
     (.str "X") (by decide) (by decide) (Or.inl (by decide)),
   C10_excel_missing_vs_blank.2.1 0 1 2 1000000
     [some (.str "X"), some (.str " "), some (.str "2:00")] (.str "X") (.str "2:00") " "
     (by decide) (by decide) (by decide) (by decide) (by decide),
   C10_excel_missing_vs_blank.2.2.1 0 1 2 1000000
     [some (.str "X"), some (.str "1:00"), some (.str "  ")] (.str "X") (.str "1:00")
     60000 "  " (by decide) (by decide) (by decide) (by decide) (by decide) (by decide)⟩
